import Mathlib

/-! # cfggui: the data-window registry of `GuiWinInput`

A shallow embedding of `src/cfggui/gui_win_input/gui_win_input.cpp`: the list of
data windows owned by an input window, the catalog `_dataWinDefs`, the button
handler that creates a data window under a fresh name, the restore of the saved
windows, the sweep of closed windows, the dispatch of data to the children and
the title update.

`std::string` is embedded as `List Char`, the vector `_dataWindows` as a list of
records, exceptions as `Except`, and the calls to collaborators outside the file
(the logger, the factories of the catalog, the children's virtual methods) are
recorded in trace fields of the state.
-/

namespace CfgGui

/-! ## Strings -/

/-- The embedding of `std::string`: a sequence of characters. -/
abbrev Str := List Char

/-- The terminating character of a C string. -/
def NUL : Char := Char.ofNat 0

/-- The function `std::to_string` on a non-negative `int`: its decimal digits. -/
def to_string (n : Nat) : Str := Nat.toDigits 10 n

/-- The C string seen through `std::string::c_str()`: the characters before the first NUL. -/
def c_str (s : Str) : Str := s.takeWhile (fun c => c != NUL)

/-- The function `strlen`: the number of characters before the first NUL. -/
def strlen (s : Str) : Nat := (c_str s).length

/-- The function `strncmp(a, b, n)`: compares at most `n` characters, the end of either
string counting as NUL, and stops at a difference or at a common NUL.  The result is the
difference of the first pair of characters that differ, or zero. -/
def strncmp : Str → Str → Nat → Int
  | _, _, 0 => 0
  | a, b, n + 1 =>
    let ca := a.headD NUL
    let cb := b.headD NUL
    if ca ≠ cb then (ca.toNat : Int) - (cb.toNat : Int)
    else if ca = NUL then 0
    else strncmp a.tail b.tail n

/-- The loop of `std::string::find(pat)`: the first position at or after `i`, counted from
the start of the whole string, where `pat` occurs; `none` is `npos`. -/
def findFrom (pat : Str) : Str → Nat → Option Nat
  | [], i => if pat = [] then some i else none
  | c :: cs, i => if pat.isPrefixOf (c :: cs) then some i else findFrom pat cs (i + 1)

/-- The function `std::string::find(pat)`. -/
def find (s pat : Str) : Option Nat := findFrom pat s 0

/-- The function `std::string::substr(pos)`: throws `std::out_of_range` when `pos` is
beyond the size of the string. -/
def substr (s : Str) (pos : Nat) : Except Unit Str :=
  if pos > s.length then .error () else .ok (s.drop pos)

/-- The function `std::string::erase(pos, npos)`. -/
def erase (s : Str) (pos : Nat) : Str := s.take pos

/-- The function `std::string::replace(0, len, by)`. -/
def replace0 (s : Str) (len : Nat) (by_ : Str) : Str := by_ ++ s.drop len

/-! ## The catalog -/

/-- Modelled from the spec: the enumeration `DataWinDef::Cap_e` of the header
`gui_win_input.hpp`, which is not part of the sources at hand: a bitset of the
capability levels of a parent window, `ALL` having the bits of both levels. -/
inductive Cap_e where
  | PASSIVE
  | ACTIVE
  | ALL
  deriving DecidableEq, Repr

/-- The bits of a capability value. -/
def Cap_e.bits : Cap_e → Nat
  | .PASSIVE => 1
  | .ACTIVE => 2
  | .ALL => 3

/-- Modelled from the spec: the helper `CHKBITS_ANY` of `ff_stuff.h`: the two bitsets
share at least one bit. -/
def CHKBITS_ANY (a b : Nat) : Bool := (a &&& b) != 0

/-- One row of the catalog, `GuiWinInput::DataWinDef`: the kind name, the display title,
the required capabilities, and the class that the factory `create` of the row builds.
The button label (an icon glyph) plays no part in the registry and is left out. -/
structure DataWinDef where
  name : Str
  title : Str
  reqs : Cap_e
  cls : Str
  deriving DecidableEq, Repr

/-- The table `GuiWinInput::_dataWinDefs`. -/
def _dataWinDefs : List DataWinDef :=
  [ { name := "Log".toList,        title := "Log".toList,             reqs := .ALL,    cls := "GuiWinDataLog".toList },
    { name := "Messages".toList,   title := "Messages".toList,        reqs := .ALL,    cls := "GuiWinDataMessages".toList },
    { name := "Inf".toList,        title := "Inf messages".toList,    reqs := .ALL,    cls := "GuiWinDataInf".toList },
    { name := "Scatter".toList,    title := "Scatter plot".toList,    reqs := .ALL,    cls := "GuiWinDataScatter".toList },
    { name := "Signals".toList,    title := "Signals".toList,         reqs := .ALL,    cls := "GuiWinDataSignals".toList },
    { name := "Config".toList,     title := "Configuration".toList,   reqs := .ACTIVE, cls := "GuiWinDataConfig".toList },
    { name := "Plots".toList,      title := "Plots".toList,           reqs := .ALL,    cls := "GuiWinDataPlot".toList },
    { name := "Map".toList,        title := "Map".toList,             reqs := .ALL,    cls := "GuiWinDataMap".toList },
    { name := "Satellites".toList, title := "Satellites".toList,      reqs := .ALL,    cls := "GuiWinDataSatellites".toList },
    { name := "Stats".toList,      title := "Statistics".toList,      reqs := .ALL,    cls := "GuiWinDataStats".toList },
    { name := "Epoch".toList,      title := "Epoch details".toList,   reqs := .ALL,    cls := "GuiWinDataEpoch".toList },
    { name := "Fwupdate".toList,   title := "Firmware update".toList, reqs := .ACTIVE, cls := "GuiWinDataFwupdate".toList },
    { name := "Custom".toList,     title := "Custom message".toList,  reqs := .ALL,    cls := "GuiWinDataCustom".toList } ]

/-! ## Data windows and the input window -/

/-- A data window, as far as the registry sees it: a `GuiWinData` with the members
`_winName`, `_winTitle` and `_winOpen` of its base class `GuiWin`, and the class the
factory built. -/
structure GuiWinData where
  winName : Str
  winTitle : Str
  winOpen : Bool
  cls : Str
  deriving DecidableEq, Repr

namespace GuiWinData

/-- Modelled from the spec: the constructor of a data window (the classes are not part of
the sources at hand): it keeps the name it is given; the window is not yet open and its
title is the name until `SetTitle` is called. -/
def mk0 (cls name : Str) : GuiWinData :=
  { winName := name, winTitle := name, winOpen := false, cls := cls }

/-- The method `GuiWin::GetName`. -/
def GetName (w : GuiWinData) : Str := w.winName

/-- The method `GuiWin::GetTitle`. -/
def GetTitle (w : GuiWinData) : Str := w.winTitle

/-- The method `GuiWin::IsOpen`. -/
def IsOpen (w : GuiWinData) : Bool := w.winOpen

/-- The method `GuiWin::Open`. -/
def Open (w : GuiWinData) : GuiWinData := { w with winOpen := true }

/-- The method `GuiWin::SetTitle`. -/
def SetTitle (w : GuiWinData) (title : Str) : GuiWinData := { w with winTitle := title }

end GuiWinData

/-- The discriminator `Data::Type` of the data handed to `_ProcessData`. -/
inductive DataType where
  | DATA_MSG
  | INFO_NOTICE
  | INFO_WARN
  | INFO_ERROR
  | EVENT_STOP
  | DATA_EPOCH
  deriving DecidableEq, Repr

/-- The part of `Data` that `_ProcessData` looks at: the type, the name of the message, the
outcome of `ubxMonVerToVerStr` on its payload (`some str` when it returns true), the text
of an info, and the valid flag and fix string of an epoch. -/
structure Data where
  type : DataType
  msgName : Str
  monVerStr : Option Str
  info : Str
  epochValid : Bool
  epochFixStr : Str
  deriving DecidableEq, Repr

/-- The severity of a line written by the logging helpers `ERROR` and `WARNING`. -/
inductive LogLevel where
  | ERROR
  | WARNING
  deriving DecidableEq, Repr

/-- The colour of a line of the log widget. -/
inductive Colour where
  | INF_NOTICE
  | INF_WARNING
  | INF_ERROR
  deriving DecidableEq, Repr

/-- The collaborators outside the file, as functions: whether the factory of a catalog row
throws for a name (`some what`) or builds the window, the text of the `std::out_of_range`
thrown by `substr`, and what the virtual methods `ProcessData` and `DrawWindow` of a child
do to the child (of their result only the title and the open flag are used: a window has
no way to change its name or its class).  An exception of `Open` or `SetTitle` on the
window just built is raised inside the same `try`, before the window is added, and is
caught by the same `catch`: it counts as an exception of the factory call. -/
structure Env where
  createThrows : DataWinDef → Str → Option Str
  outOfRangeWhat : Str
  childProcessData : Data → GuiWinData → GuiWinData
  childDrawWindow : GuiWinData → GuiWinData

/-- The input window `GuiWinInput`, restricted to the members the registry code uses, with
three traces of its calls to collaborators: the lines logged, the factory calls made (kind
name and window name), and the `ProcessData` calls made on children (the child as it was
at the call, and the data). -/
structure GuiWinInput where
  winName : Str
  winTitle : Str
  winDrawn : Bool
  rxVerStr : Str
  dataWinCaps : Cap_e
  autoHideDatawin : Bool
  dataWindows : List GuiWinData
  logWidget : List (Str × Colour)
  epoch : Option Str
  fixStr : Option Str
  log : List (LogLevel × Str)
  factoryCalls : List (Str × Str)
  delivered : List (GuiWinData × Data)
  deriving DecidableEq, Repr

/-- The virtual method `DrawWindow` of a child: it may change the title and the open flag
(the close button of the window clears the flag). -/
def GuiWinData.DrawWindow (env : Env) (w : GuiWinData) : GuiWinData :=
  { w with winTitle := (env.childDrawWindow w).winTitle
           winOpen := (env.childDrawWindow w).winOpen }

/-- The virtual method `ProcessData` of a child: it may change the title and the open
flag. -/
def GuiWinData.ProcessData (env : Env) (w : GuiWinData) (data : Data) : GuiWinData :=
  { w with winTitle := (env.childProcessData data w).winTitle
           winOpen := (env.childProcessData data w).winOpen }

/-- The factory call `def.create(name, _database)`: the window built, or the exception. -/
def DataWinDef.create (env : Env) (d : DataWinDef) (name : Str) : Except Str GuiWinData :=
  match env.createThrows d name with
  | some what => .error what
  | none => .ok (GuiWinData.mk0 d.cls name)

namespace GuiWinInput

/-- The method `GuiWin::GetName` of the input window. -/
def GetName (st : GuiWinInput) : Str := st.winName

/-- The method `GuiWin::GetTitle` of the input window. -/
def GetTitle (st : GuiWinInput) : Str := st.winTitle

/-- The method `GuiWin::SetTitle` of the input window. -/
def SetTitle (st : GuiWinInput) (title : Str) : GuiWinInput := { st with winTitle := title }

/-- The method `_AddDataWindow`: `push_back` on `_dataWindows`. -/
def _AddDataWindow (st : GuiWinInput) (dataWin : GuiWinData) : GuiWinInput :=
  { st with dataWindows := st.dataWindows ++ [dataWin] }

/-- The inner `for` loop of the button handler: `nameUnused` is cleared at the first data
window whose name is `winName`. -/
def nameUnused (winName : Str) : List GuiWinData → Bool
  | [] => true
  | dataWin :: rest => if winName = dataWin.GetName then false else nameUnused winName rest

/-- The `try` block of the button handler with its `catch`: the factory call is recorded;
when it throws, an error is logged and nothing is added; otherwise the new window is
opened, titled and added. -/
def tryCreate (env : Env) (d : DataWinDef) (baseName : Str) (winNumber : Nat)
    (st : GuiWinInput) : GuiWinInput :=
  let winName := baseName ++ to_string winNumber
  let st1 := { st with factoryCalls := st.factoryCalls ++ [(d.name, winName)] }
  match d.create env winName with
  | .ok dataWin =>
    let dataWin := dataWin.Open
    let dataWin := dataWin.SetTitle
      (st.GetTitle ++ " - ".toList ++ d.title ++ " ".toList ++ to_string winNumber)
    st1._AddDataWindow dataWin
  | .error what =>
    { st1 with log := st1.log ++
        [(LogLevel.ERROR,
          "new ".toList ++ c_str baseName ++ to_string winNumber ++ ": ".toList ++ what)] }

/-- The loop `while (winNumber < 1000)` of the button handler.  The first argument bounds
the number of iterations for the recursion; the loop itself stops by its own condition or
by `break`. -/
def whileWinNumber (env : Env) (d : DataWinDef) (baseName : Str) :
    Nat → Nat → GuiWinInput → GuiWinInput
  | 0, _, st => st
  | fuel + 1, winNumber, st =>
    if winNumber < 1000 then
      let winName := baseName ++ to_string winNumber
      if nameUnused winName st.dataWindows then
        tryCreate env d baseName winNumber st
      else
        whileWinNumber env d baseName fuel (winNumber + 1) st
    else st

/-- The body of `if (ImGui::Button(...))` in `_DrawDataWinButtons` for the catalog row
`d`: the operation the specification calls `CreateByKind`. -/
def CreateByKind (env : Env) (d : DataWinDef) (st : GuiWinInput) : GuiWinInput :=
  let baseName := st.GetName ++ d.name
  whileWinNumber env d baseName 1000 1 st

/-- The method `_DrawDataWinButtons`: one button per catalog row, disabled when the row's
requirements and the window's capabilities share no bit; `clicked` tells which buttons the
user clicks in this frame, and a disabled button does not report a click. -/
def _DrawDataWinButtons (env : Env) (clicked : DataWinDef → Bool) (st : GuiWinInput) :
    GuiWinInput :=
  _dataWinDefs.foldl
    (fun st d =>
      let disabled := !CHKBITS_ANY d.reqs.bits st.dataWinCaps.bits
      if !disabled && clicked d then CreateByKind env d st else st)
    st

/-- The loop `for (auto &def: _dataWinDefs)` of `OpenPreviousDataWin` for one remainder
`name`, inside the `try`: the first row whose name compares equal by `strncmp` builds the
window and ends the loop.  The result is the state reached and the exception in flight,
if the factory threw. -/
def restoreDefs (env : Env) (winName name : Str) :
    List DataWinDef → GuiWinInput → GuiWinInput × Option Str
  | [], st => (st, none)
  | d :: rest, st =>
    let nameLen := strlen d.name
    if strncmp (c_str name) d.name nameLen ≠ 0 then
      restoreDefs env winName name rest st
    else
      let dataWinName2 := winName ++ name
      let st1 := { st with factoryCalls := st.factoryCalls ++ [(d.name, dataWinName2)] }
      match d.create env dataWinName2 with
      | .error what => (st1, some what)
      | .ok win =>
        let win := win.Open
        match substr name nameLen with
        | .error () => (st1, some env.outOfRangeWhat)
        | .ok suffix =>
          let win := win.SetTitle (winName ++ " - ".toList ++ d.title ++ " ".toList ++ suffix)
          (st1._AddDataWindow win, none)

/-- The `catch` of `OpenPreviousDataWin`: a warning with the saved name (as a C string)
and the text of the exception. -/
def restoreWarn (dataWinName what : Str) (st : GuiWinInput) : GuiWinInput :=
  { st with log := st.log ++
      [(LogLevel.WARNING, "new ".toList ++ c_str dataWinName ++ ": ".toList ++ what)] }

/-- The body of the loop over the saved names in `OpenPreviousDataWin`: the `try` block
and its `catch`, which logs a warning and goes on with the next name. -/
def restoreOne (env : Env) (st : GuiWinInput) (dataWinName : Str) : GuiWinInput :=
  let winName := st.GetName
  match substr dataWinName winName.length with
  | .error () => restoreWarn dataWinName env.outOfRangeWhat st
  | .ok name =>
    match restoreDefs env winName name _dataWinDefs st with
    | (st2, none) => st2
    | (st2, some what) => restoreWarn dataWinName what st2

/-- The method `OpenPreviousDataWin`, given the list of names read from the settings: the
operation the specification calls `RestoreFromNames`. -/
def OpenPreviousDataWin (env : Env) (dataWinNames : List Str) (st : GuiWinInput) :
    GuiWinInput :=
  dataWinNames.foldl (restoreOne env) st

/-- The loop of `DrawDataWindows` over `_dataWindows`: an open window is drawn and kept, a
window that is not open is erased. -/
def drawLoop (env : Env) : List GuiWinData → List GuiWinData
  | [] => []
  | dataWin :: rest =>
    if dataWin.IsOpen then dataWin.DrawWindow env :: drawLoop env rest
    else drawLoop env rest

/-- The method `DrawDataWindows`: the operation the specification calls `SweepClosed`. -/
def DrawDataWindows (env : Env) (st : GuiWinInput) : GuiWinInput :=
  if st.autoHideDatawin && !st.winDrawn then st
  else { st with dataWindows := drawLoop env st.dataWindows }

/-- The loop over the children at the end of `_UpdateTitle`: in a title that contains
`" - "`, what stands before its first occurrence is replaced by the main title. -/
def updateChildTitle (mainTitle : Str) (dataWin : GuiWinData) : GuiWinData :=
  let childTitle := dataWin.GetTitle
  match find childTitle " - ".toList with
  | some pos => dataWin.SetTitle (replace0 childTitle pos mainTitle)
  | none => dataWin

/-- The new main title computed by `_UpdateTitle`: the title cut at its first colon,
followed by the receiver version when there is one. -/
def newMainTitle (title rxVerStr : Str) : Str :=
  let mainTitle := title
  let mainTitle := match find mainTitle [':'] with
    | some pos => erase mainTitle pos
    | none => mainTitle
  if !rxVerStr.isEmpty then mainTitle ++ (": ".toList ++ rxVerStr) else mainTitle

/-- The method `_UpdateTitle`. -/
def _UpdateTitle (st : GuiWinInput) : GuiWinInput :=
  let mainTitle := newMainTitle st.GetTitle st.rxVerStr
  let st := st.SetTitle mainTitle
  { st with dataWindows := st.dataWindows.map (updateChildTitle mainTitle) }

/-- The `switch` of `_ProcessData`. -/
def processSwitch (data : Data) (st : GuiWinInput) : GuiWinInput :=
  match data.type with
  | .DATA_MSG =>
    if data.msgName = "UBX-MON-VER".toList then
      match data.monVerStr with
      | some str => _UpdateTitle { st with rxVerStr := str }
      | none => st
    else st
  | .INFO_NOTICE => { st with logWidget := st.logWidget ++ [(data.info, Colour.INF_NOTICE)] }
  | .INFO_WARN => { st with logWidget := st.logWidget ++ [(data.info, Colour.INF_WARNING)] }
  | .INFO_ERROR => { st with logWidget := st.logWidget ++ [(data.info, Colour.INF_ERROR)] }
  | .EVENT_STOP =>
    let st := _UpdateTitle { st with rxVerStr := [] }
    { st with epoch := none }
  | .DATA_EPOCH =>
    if data.epochValid then
      let st := { st with epoch := some data.epochFixStr }
      if st.fixStr ≠ some data.epochFixStr then { st with fixStr := some data.epochFixStr }
      else st
    else st

/-- The loop over the children at the end of `_ProcessData`: each child in turn is handed
the data; the call is recorded. -/
def processLoop (env : Env) (data : Data) :
    List GuiWinData → List GuiWinData × List (GuiWinData × Data)
  | [] => ([], [])
  | dataWin :: rest =>
    let r := processLoop env data rest
    (dataWin.ProcessData env data :: r.1, (dataWin, data) :: r.2)

/-- The method `_ProcessData`: the operation the specification calls `DispatchEvent`. -/
def _ProcessData (env : Env) (data : Data) (st : GuiWinInput) : GuiWinInput :=
  let st := processSwitch data st
  let r := processLoop env data st.dataWindows
  { st with dataWindows := r.1, delivered := st.delivered ++ r.2 }

/-- The saved names written by the destructor: the name of every data window, in order. -/
def openWinNames (st : GuiWinInput) : List Str := st.dataWindows.map GuiWinData.GetName

/-- The constructor `GuiWinInput(name)`, with the title the derived class gives the window:
not drawn so far, no data window, no receiver version, all capabilities, data windows
hidden with the window. -/
def new (name title : Str) : GuiWinInput :=
  { winName := name, winTitle := title, winDrawn := false, rxVerStr := [],
    dataWinCaps := .ALL, autoHideDatawin := true, dataWindows := [], logWidget := [],
    epoch := none, fixStr := none, log := [], factoryCalls := [], delivered := [] }

/-- The window name that the button handler tries for the number `n`. -/
def candidate (st : GuiWinInput) (d : DataWinDef) (n : Nat) : Str :=
  st.GetName ++ d.name ++ to_string n

/-- The names of the data windows, in order. -/
def names (st : GuiWinInput) : List Str := st.dataWindows.map GuiWinData.GetName

end GuiWinInput

/-- The catalog row of a kind name, if there is one. -/
def findDef (kindId : Str) : Option DataWinDef := _dataWinDefs.find? (fun d => d.name = kindId)

/-- The collaborators of the examples: no factory throws, a child does nothing on data,
and drawing the child named `closing` closes it (the user clicks its close button). -/
def quietEnv (closing : Str) : Env :=
  { createThrows := fun _ _ => none
    outOfRangeWhat := "basic_string::substr".toList
    childProcessData := fun _ w => w
    childDrawWindow := fun w => if w.GetName = closing then { w with winOpen := false } else w }

/-- `CreateByKind` for a kind name of the catalog. -/
def createKind (env : Env) (kindId : String) (st : GuiWinInput) : GuiWinInput :=
  match findDef kindId.toList with
  | some d => GuiWinInput.CreateByKind env d st
  | none => st

open GuiWinInput

/-- The window that a successful `try` block of the button handler adds. -/
def createdWin (st : GuiWinInput) (d : DataWinDef) (n : Nat) : GuiWinData :=
  { winName := st.candidate d n
    winTitle := st.GetTitle ++ " - ".toList ++ d.title ++ " ".toList ++ to_string n
    winOpen := true
    cls := d.cls }

/-- The input window of the examples: `Receiver1`, titled `Receiver 1`, without data
windows, drawn in the current frame. -/
def receiver1 : GuiWinInput :=
  { GuiWinInput.new "Receiver1".toList "Receiver 1".toList with winDrawn := true }

/-- The window `Receiver1` after `Map` was created once. -/
def receiver1Map1 : GuiWinInput := createKind (quietEnv []) "Map" receiver1

/-- The catalog row `Map`. -/
def mapDef : DataWinDef :=
  { name := "Map".toList, title := "Map".toList, reqs := .ALL, cls := "GuiWinDataMap".toList }

/-- The window `Receiver1` with `Map1` closed by the user and `Map2` open. -/
def receiver1MapClosed : GuiWinInput :=
  DrawDataWindows (quietEnv "Receiver1Map1".toList)
    (createKind (quietEnv []) "Map" (createKind (quietEnv []) "Map" receiver1))

/-- The window that `OpenPreviousDataWin` builds with the catalog row `d` for the
remainder `r` of a saved name. -/
def restoredWin (winName : Str) (d : DataWinDef) (r : Str) : GuiWinData :=
  { winName := winName ++ r
    winTitle := winName ++ " - ".toList ++ d.title ++ " ".toList ++ r.drop d.name.length
    winOpen := true
    cls := d.cls }

/-- The restore of one saved name in the words of the specification: a name at least as
long as the parent name, whose remainder after the parent-name-length prefix starts with a
catalog kind name, gives the window built by the first such row in catalog order, if the
factory call succeeds; any other name gives nothing. -/
def restoredBySpec (env : Env) (winName s : Str) : Option GuiWinData :=
  if winName.length ≤ s.length then
    match _dataWinDefs.find? (fun d => d.name.isPrefixOf (s.drop winName.length)) with
    | some d =>
      if env.createThrows d (winName ++ s.drop winName.length) = none then
        some (restoredWin winName d (s.drop winName.length))
      else none
    | none => none
  else none

/-- The collaborators of the failure examples: every factory throws `what`. -/
def throwingEnv (what : Str) : Env :=
  { quietEnv [] with createThrows := fun _ _ => some what }

/-- The window `Receiver1` holding the 999 windows `Receiver1Map1` to `Receiver1Map999`. -/
def receiver1Full : GuiWinInput :=
  { receiver1 with
    dataWindows := (List.range' 1 999).map (fun n => createdWin receiver1 mapDef n) }

/-- The window `Receiver1` titled `title`, with receiver version `ver` and one data
window of the given title. -/
def receiver1Titled (title ver childTitle : String) : GuiWinInput :=
  { receiver1 with
    winTitle := title.toList
    rxVerStr := ver.toList
    dataWindows := [{ winName := "Receiver1Map1".toList, winTitle := childTitle.toList,
                      winOpen := true, cls := "GuiWinDataMap".toList }] }

/-- The link between the class and the name of the data windows: every data window was
built by a catalog row, and its name starts with the parent name and the kind name of
that row.  Every window built by `CreateByKind` or `OpenPreviousDataWin` is of this
form. -/
def WellNamed (st : GuiWinInput) : Prop :=
  ∀ w ∈ st.dataWindows, ∃ e ∈ _dataWinDefs, w.cls = e.cls ∧ (st.GetName ++ e.name) <+: w.GetName

/-- A sequence of clicks on create buttons, one `CreateByKind` per row of the list, in
order. -/
def createAll (env : Env) (ops : List DataWinDef) (st : GuiWinInput) : GuiWinInput :=
  ops.foldl (fun s e => CreateByKind env e s) st

/-- The states an input window can be in: the fresh window, what `CreateByKind` for a
catalog row, `OpenPreviousDataWin`, `DrawDataWindows` and `_ProcessData` make of such a
state, and what the rest of the class makes of it, which touches neither the name of the
window nor its list of data windows. -/
inductive Reachable (env : Env) : GuiWinInput → Prop where
  | fresh (name title : Str) : Reachable env (GuiWinInput.new name title)
  | create (st : GuiWinInput) (d : DataWinDef) :
      Reachable env st → d ∈ _dataWinDefs → Reachable env (CreateByKind env d st)
  | restore (st : GuiWinInput) (saved : List Str) :
      Reachable env st → Reachable env (OpenPreviousDataWin env saved st)
  | sweep (st : GuiWinInput) : Reachable env st → Reachable env (DrawDataWindows env st)
  | data (st : GuiWinInput) (data : Data) :
      Reachable env st → Reachable env (_ProcessData env data st)
  | other (st st2 : GuiWinInput) :
      Reachable env st → st2.winName = st.winName → st2.dataWindows = st.dataWindows →
      Reachable env st2

/-- The state of the numbering of the kind `d` under the parent name `N` after `j`
creations: the windows of the class of `d` are named `N` + kind name + 1 to `j`, in list
order. -/
def Numbered (N : Str) (d : DataWinDef) (j : Nat) (s : GuiWinInput) : Prop :=
  s.GetName = N ∧ WellNamed s ∧
    (s.dataWindows.filter (fun w => w.cls = d.cls)).map GuiWinData.GetName =
      (List.range' 1 j).map (fun n => N ++ d.name ++ to_string n)

/-- The warning that the restore of one saved name logs, if it logs one: for a name
shorter than the parent name (the exception of `substr`), and for a name whose first
matching catalog row has a factory that throws. -/
def restoreWarning (env : Env) (winName s : Str) : Option (LogLevel × Str) :=
  if winName.length ≤ s.length then
    match _dataWinDefs.find? (fun d => d.name.isPrefixOf (s.drop winName.length)) with
    | some d =>
      match env.createThrows d (winName ++ s.drop winName.length) with
      | some what => some (LogLevel.WARNING, "new ".toList ++ c_str s ++ ": ".toList ++ what)
      | none => none
    | none => none
  else some (LogLevel.WARNING, "new ".toList ++ c_str s ++ ": ".toList ++ env.outOfRangeWhat)

/-- A saved name that is long enough and whose remainder starts with no catalog kind
name. -/
def unmatched (winName s : Str) : Bool :=
  decide (winName.length ≤ s.length) &&
    (_dataWinDefs.find? (fun d => d.name.isPrefixOf (s.drop winName.length))).isNone

/-- The window `Receiver1` once the receiver version is known: titled
`Receiver 1: fw 1.0`. -/
def receiver1Versioned : GuiWinInput :=
  { receiver1 with winTitle := "Receiver 1: fw 1.0".toList, rxVerStr := "fw 1.0".toList }

/-- Modelled from the spec: what the settings keep of the list handed to `SetValueList`
and give back through `GetValueList` (both are not part of the sources at hand): the
names in order, at most `max` of them (`MAX_SAVED_WINDOWS`). -/
def savedList (max : Nat) (names : List Str) : List Str := names.take max

/-- The states reached from the fresh window by `CreateByKind` for catalog rows and by
`DrawDataWindows`, and by steps of the rest of the class, which leave the name of the
window and the names and classes of its data windows as they are. -/
inductive Created (env : Env) : GuiWinInput → Prop where
  | fresh (name title : Str) : Created env (GuiWinInput.new name title)
  | create (st : GuiWinInput) (d : DataWinDef) :
      Created env st → d ∈ _dataWinDefs → Created env (CreateByKind env d st)
  | sweep (st : GuiWinInput) : Created env st → Created env (DrawDataWindows env st)
  | other (st st2 : GuiWinInput) :
      Created env st → st2.winName = st.winName →
      st2.dataWindows.map (fun w => (w.GetName, w.cls)) =
        st.dataWindows.map (fun w => (w.GetName, w.cls)) →
      Created env st2

/-- The form of the data windows built by the button handler: the name is the parent
name, the kind name of a catalog row and a decimal number, and the class is the one of
that row. -/
def CreatedForm (st : GuiWinInput) : Prop :=
  ∀ w ∈ st.dataWindows, ∃ d ∈ _dataWinDefs, ∃ n : Nat,
    w.GetName = st.GetName ++ d.name ++ to_string n ∧ w.cls = d.cls

/-- The fresh window `Receiver1` after two clicks on the button `Map`. -/
def receiver1Two : GuiWinInput :=
  CreateByKind (quietEnv []) mapDef
    (CreateByKind (quietEnv []) mapDef (GuiWinInput.new "Receiver1".toList "Receiver 1".toList))

/-- A logfile window: named `Logfile1`, with the capabilities `PASSIVE`, which do not
include `ACTIVE`. -/
def logfile1 : GuiWinInput :=
  { GuiWinInput.new "Logfile1".toList "Logfile 1".toList with
    dataWinCaps := .PASSIVE, winDrawn := true }

/-- Every data window is of a kind whose requirements the capabilities of the window
meet. -/
def Permitted (st : GuiWinInput) : Prop :=
  ∀ w ∈ st.dataWindows, ∃ d ∈ _dataWinDefs,
    w.cls = d.cls ∧ CHKBITS_ANY d.reqs.bits st.dataWinCaps.bits = true

/-! ## The database icon -/

/-- Modelled from the spec: the helper `CLIP` of `ff_stuff.h`: the value, held between
the two bounds. -/
def CLIP (x lo hi : ℚ) : ℚ := if x < lo then lo else if x > hi then hi else x

/-- The conversion of a `float` to `int`: the fraction is cut off, toward zero. -/
def toInt (x : ℚ) : Int := if 0 ≤ x then Rat.floor x else -Rat.floor (-x)

/-- The table `dbIcons` of `_DrawActionButtons`, each icon with the band of fill, in per
cent, that the comment beside it gives. -/
def dbIcons : List (String × Nat × Nat) :=
  [ ("ICON_FK_BATTERY_EMPTY", 0, 20),
    ("ICON_FK_BATTERY_QUARTER", 20, 40),
    ("ICON_FK_BATTERY_HALF", 40, 60),
    ("ICON_FK_BATTERY_THREE_QUARTERS", 60, 80),
    ("ICON_FK_BATTERY_FULL", 80, 100) ]

/-- The index `dbIconIx` of `_DrawActionButtons` for a database of size `dbSize` with
`dbUsage` epochs, the `float` values taken as exact rationals. -/
def dbIconIx (dbSize dbUsage : Int) : Int :=
  let dbFull : ℚ := (dbUsage : ℚ) / (dbSize : ℚ)
  toInt (CLIP dbFull 0 1 * ((dbIcons.length - 1 : Nat) : ℚ))

/-! ## Lemmas on the building blocks -/

theorem nameUnused_iff (winName : Str) (ws : List GuiWinData) :
    nameUnused winName ws = true ↔ winName ∉ ws.map GuiWinData.GetName := by
  induction ws with
  | nil => simp [nameUnused]
  | cons w ws ih =>
    by_cases h : winName = w.GetName
    · simp [nameUnused, h]
    · simp only [nameUnused, h, if_false, ih, List.map_cons, List.mem_cons, false_or]

/-- The `while` loop from `k` on, when the numbers from `k` up to `n` are taken and `n` is
free: the loop runs the `try` block for `n`. -/
theorem whileWinNumber_found (env : Env) (d : DataWinDef) (baseName : Str) (st : GuiWinInput)
    (n : Nat) (hn : n < 1000) (hfree : (baseName ++ to_string n) ∉ st.names) :
    ∀ (fuel k : Nat), k ≤ n → n < k + fuel →
      (∀ m, k ≤ m → m < n → (baseName ++ to_string m) ∈ st.names) →
      whileWinNumber env d baseName fuel k st = tryCreate env d baseName n st := by
  intro fuel
  induction fuel with
  | zero => intro k hk hf; omega
  | succ fuel ih =>
    intro k hk hf hused
    have hk1 : k < 1000 := by omega
    rcases Nat.eq_or_lt_of_le hk with rfl | hlt
    · have : nameUnused (baseName ++ to_string k) st.dataWindows = true :=
        (nameUnused_iff _ _).2 hfree
      simp [whileWinNumber, hk1, this]
    · have hu : nameUnused (baseName ++ to_string k) st.dataWindows = false := by
        have := hused k (Nat.le_refl k) hlt
        rcases hb : nameUnused (baseName ++ to_string k) st.dataWindows with _ | _
        · rfl
        · exact absurd this ((nameUnused_iff _ _).1 hb)
      simp only [whileWinNumber, hk1, if_true, hu]
      exact ih (k + 1) (by omega) (by omega) (fun m hm hmn => hused m (by omega) hmn)

/-- The `while` loop from `k` on, when every number from `k` up to 999 is taken: the loop
ends by its condition and the state is as before. -/
theorem whileWinNumber_exhausted (env : Env) (d : DataWinDef) (baseName : Str)
    (st : GuiWinInput) :
    ∀ (fuel k : Nat),
      (∀ m, k ≤ m → m < 1000 → (baseName ++ to_string m) ∈ st.names) →
      whileWinNumber env d baseName fuel k st = st := by
  intro fuel
  induction fuel with
  | zero => intro k _; rfl
  | succ fuel ih =>
    intro k hused
    by_cases hk : k < 1000
    · have hu : nameUnused (baseName ++ to_string k) st.dataWindows = false := by
        have := hused k (Nat.le_refl k) hk
        rcases hb : nameUnused (baseName ++ to_string k) st.dataWindows with _ | _
        · rfl
        · exact absurd this ((nameUnused_iff _ _).1 hb)
      simp only [whileWinNumber, hk, if_true, hu]
      exact ih (k + 1) (fun m hm hmn => hused m (by omega) hmn)
    · simp [whileWinNumber, hk]

/-- The least free number below 1000, when there is a free one. -/
theorem exists_least_free (st : GuiWinInput) (d : DataWinDef)
    (h : ∃ n, 1 ≤ n ∧ n ≤ 999 ∧ st.candidate d n ∉ st.names) :
    ∃ n, 1 ≤ n ∧ n ≤ 999 ∧ st.candidate d n ∉ st.names ∧
      ∀ m, 1 ≤ m → m < n → st.candidate d m ∈ st.names := by
  classical
  let P : Nat → Prop := fun n => 1 ≤ n ∧ n ≤ 999 ∧ st.candidate d n ∉ st.names
  have hP : ∃ n, P n := h
  refine ⟨Nat.find hP, (Nat.find_spec hP).1, (Nat.find_spec hP).2.1, (Nat.find_spec hP).2.2, ?_⟩
  intro m hm hlt
  by_contra hnot
  exact Nat.find_min hP hlt ⟨hm, by have := (Nat.find_spec hP).2.1; omega, hnot⟩

/-- What `CreateByKind` does when `n` is the least free number: the `try` block for `n`. -/
theorem CreateByKind_eq_tryCreate (env : Env) (d : DataWinDef) (st : GuiWinInput) (n : Nat)
    (h1 : 1 ≤ n) (h999 : n ≤ 999) (hfree : st.candidate d n ∉ st.names)
    (hmin : ∀ m, 1 ≤ m → m < n → st.candidate d m ∈ st.names) :
    CreateByKind env d st = tryCreate env d (st.GetName ++ d.name) n st :=
  whileWinNumber_found env d (st.GetName ++ d.name) st n (by omega) hfree 1000 1 h1 (by omega)
    (fun m hm hmn => hmin m hm hmn)

/-- What `CreateByKind` does when no number below 1000 is free: nothing. -/
theorem CreateByKind_eq_self (env : Env) (d : DataWinDef) (st : GuiWinInput)
    (hfull : ∀ m, 1 ≤ m → m < 1000 → st.candidate d m ∈ st.names) :
    CreateByKind env d st = st :=
  whileWinNumber_exhausted env d (st.GetName ++ d.name) st 1000 1 hfull

theorem tryCreate_ok (env : Env) (d : DataWinDef) (st : GuiWinInput) (n : Nat)
    (hok : env.createThrows d (st.candidate d n) = none) :
    tryCreate env d (st.GetName ++ d.name) n st =
      { st with dataWindows := st.dataWindows ++ [createdWin st d n]
                factoryCalls := st.factoryCalls ++ [(d.name, st.candidate d n)] } := by
  simp only [candidate] at hok
  simp only [tryCreate, DataWinDef.create, hok]
  rfl

theorem tryCreate_error (env : Env) (d : DataWinDef) (st : GuiWinInput) (n : Nat) (what : Str)
    (herr : env.createThrows d (st.candidate d n) = some what) :
    tryCreate env d (st.GetName ++ d.name) n st =
      { st with factoryCalls := st.factoryCalls ++ [(d.name, st.candidate d n)]
                log := st.log ++ [(LogLevel.ERROR,
                  "new ".toList ++ c_str (st.GetName ++ d.name) ++ to_string n ++ ": ".toList ++ what)] } := by
  simp only [candidate] at herr
  simp only [tryCreate, DataWinDef.create, herr]
  rfl

theorem drawLoop_eq (env : Env) (ws : List GuiWinData) :
    drawLoop env ws = (ws.filter GuiWinData.IsOpen).map (GuiWinData.DrawWindow env) := by
  induction ws with
  | nil => rfl
  | cons w ws ih =>
    by_cases h : w.IsOpen = true
    · simp [drawLoop, h, ih]
    · simp [drawLoop, h, ih]

/-! ### The prefix test of the restore -/

theorem c_str_eq_self (p : Str) (hp : NUL ∉ p) : c_str p = p := by
  unfold c_str
  rw [List.takeWhile_eq_self_iff]
  intro c hc
  have : c ≠ NUL := fun h => hp (h ▸ hc)
  simpa using this

theorem strlen_eq_length (p : Str) (hp : NUL ∉ p) : strlen p = p.length := by
  unfold strlen
  rw [c_str_eq_self p hp]

theorem toNat_sub_ne_zero (a b : Char) (h : a ≠ b) : (a.toNat : Int) - (b.toNat : Int) ≠ 0 := by
  intro h0
  apply h
  have h1 : a.toNat = b.toNat := by omega
  have h2 := congrArg Char.ofNat h1
  simpa using h2

/-- The comparison `strncmp(name.c_str(), def.name, strlen(def.name)) == 0` of the restore
holds exactly when the kind name is a prefix of the remainder. -/
theorem strncmp_eq_zero_iff (p : Str) (hp : NUL ∉ p) :
    ∀ s : Str, strncmp (c_str s) p p.length = 0 ↔ p <+: s := by
  induction p with
  | nil => intro s; simp [strncmp]
  | cons c p ih =>
    intro s
    have hc : c ≠ NUL := fun h => hp (by simp [h])
    have hp2 : NUL ∉ p := fun h => hp (List.mem_cons_of_mem _ h)
    have hnil : strncmp [] (c :: p) (c :: p).length ≠ 0 := by
      simp only [List.length_cons, strncmp, List.headD_nil, List.headD_cons]
      rw [if_pos (Ne.symm hc)]
      exact toNat_sub_ne_zero _ _ (Ne.symm hc)
    cases s with
    | nil =>
      have : c_str [] = [] := rfl
      rw [this]
      exact ⟨fun h => absurd h hnil, fun h => absurd h (by simp)⟩
    | cons a s =>
      by_cases ha : a = NUL
      · have : c_str (a :: s) = [] := by simp [c_str, ha]
        rw [this]
        have hne : ¬ (c :: p) <+: (a :: s) := by
          intro hpre
          rw [List.cons_prefix_cons] at hpre
          exact hc (hpre.1.trans ha)
        exact ⟨fun h => absurd h hnil, fun h => absurd h hne⟩
      · have hcs : c_str (a :: s) = a :: c_str s := by simp [c_str, ha]
        rw [hcs]
        by_cases hac : a = c
        · subst hac
          simp only [List.length_cons, strncmp, List.headD_cons, ne_eq, not_true_eq_false,
            if_false, ha, List.tail_cons, List.cons_prefix_cons, true_and]
          exact ih hp2 s
        · have hne : ¬ (c :: p) <+: (a :: s) := by
            intro hpre
            rw [List.cons_prefix_cons] at hpre
            exact hac hpre.1.symm
          simp only [List.length_cons, strncmp, List.headD_cons, ne_eq, hac, not_false_eq_true,
            if_true, hne, iff_false]
          exact toNat_sub_ne_zero _ _ hac

theorem dataWinDefs_no_NUL : ∀ d ∈ _dataWinDefs, NUL ∉ d.name := by decide

/-- The windows after the loop over the catalog rows in the restore of one remainder. -/
theorem restoreDefs_dataWindows (env : Env) (N name : Str) :
    ∀ (defs : List DataWinDef), (∀ d ∈ defs, NUL ∉ d.name) → ∀ (st : GuiWinInput),
      (restoreDefs env N name defs st).1.dataWindows = st.dataWindows ++
        (match defs.find? (fun d => d.name.isPrefixOf name) with
          | some d => if env.createThrows d (N ++ name) = none then [restoredWin N d name] else []
          | none => []) ∧
      (restoreDefs env N name defs st).1.winName = st.winName := by
  intro defs
  induction defs with
  | nil => intro _ st; simp [restoreDefs]
  | cons d rest ih =>
    intro hd st
    have hdn : NUL ∉ d.name := hd d (List.mem_cons_self _ _)
    have hrest : ∀ d ∈ rest, NUL ∉ d.name := fun x hx => hd x (List.mem_cons_of_mem _ hx)
    have hlen : strlen d.name = d.name.length := strlen_eq_length _ hdn
    by_cases hpre : d.name <+: name
    · have hz : strncmp (c_str name) d.name (strlen d.name) = 0 := by
        rw [hlen]; exact (strncmp_eq_zero_iff _ hdn name).2 hpre
      have hb : d.name.isPrefixOf name = true := List.isPrefixOf_iff_prefix.2 hpre
      have hsub : substr name (strlen d.name) = .ok (name.drop d.name.length) := by
        have : ¬ d.name.length > name.length := Nat.not_lt.2 hpre.length_le
        simp [substr, hlen, this]
      rcases hthrow : env.createThrows d (N ++ name) with _ | what
      · simp [restoreDefs, hz, hb, DataWinDef.create, hthrow, hsub, _AddDataWindow,
          restoredWin, GuiWinData.Open, GuiWinData.SetTitle, GuiWinData.mk0]
      · simp [restoreDefs, hz, hb, DataWinDef.create, hthrow]
    · have hz : strncmp (c_str name) d.name (strlen d.name) ≠ 0 := by
        rw [hlen]; exact fun h => hpre ((strncmp_eq_zero_iff _ hdn name).1 h)
      have hb : d.name.isPrefixOf name = false := by
        rcases hx : d.name.isPrefixOf name with _ | _
        · rfl
        · exact absurd (List.isPrefixOf_iff_prefix.1 hx) hpre
      have := ih hrest st
      simp only [restoreDefs, hz, ne_eq, not_false_eq_true, if_true, List.find?_cons, hb]
      exact this

/-- The windows after the restore of one saved name: what the specification says. -/
theorem restoreOne_dataWindows (env : Env) (st : GuiWinInput) (s : Str) :
    (restoreOne env st s).dataWindows =
        st.dataWindows ++ (restoredBySpec env st.GetName s).toList ∧
      (restoreOne env st s).winName = st.winName := by
  by_cases hlen : st.GetName.length ≤ s.length
  · have hsub : substr s st.GetName.length = .ok (s.drop st.GetName.length) := by
      have : ¬ st.GetName.length > s.length := Nat.not_lt.2 hlen
      simp [substr, this]
    have h := restoreDefs_dataWindows env st.GetName (s.drop st.GetName.length) _dataWinDefs
      dataWinDefs_no_NUL st
    have hone : (restoreOne env st s).dataWindows =
          (restoreDefs env st.GetName (s.drop st.GetName.length) _dataWinDefs st).1.dataWindows ∧
        (restoreOne env st s).winName =
          (restoreDefs env st.GetName (s.drop st.GetName.length) _dataWinDefs st).1.winName := by
      simp only [restoreOne, hsub]
      rcases restoreDefs env st.GetName (s.drop st.GetName.length) _dataWinDefs st with
        ⟨st2, _ | what⟩
      · exact ⟨rfl, rfl⟩
      · exact ⟨rfl, rfl⟩
    rw [hone.1, hone.2, h.1, h.2]
    refine ⟨?_, rfl⟩
    congr 1
    simp only [restoredBySpec, hlen, if_true]
    generalize _dataWinDefs.find? (fun d => d.name.isPrefixOf (s.drop st.GetName.length)) = o
    rcases o with _ | d
    · rfl
    · by_cases hc : env.createThrows d (st.GetName ++ s.drop st.GetName.length) = none
      · simp [hc]
      · simp [hc]
  · have hsub : substr s st.GetName.length = .error () := by
      have : st.GetName.length > s.length := Nat.lt_of_not_le hlen
      simp [substr, this]
    simp [restoreOne, hsub, restoreWarn, restoredBySpec, hlen]

theorem OpenPreviousDataWin_dataWindows (env : Env) (saved : List Str) :
    ∀ st : GuiWinInput,
      (OpenPreviousDataWin env saved st).dataWindows =
          st.dataWindows ++ saved.filterMap (restoredBySpec env st.GetName) ∧
        (OpenPreviousDataWin env saved st).winName = st.winName := by
  induction saved with
  | nil => intro st; simp [OpenPreviousDataWin]
  | cons s rest ih =>
    intro st
    have h1 := restoreOne_dataWindows env st s
    have h2 := ih (restoreOne env st s)
    have hN : (restoreOne env st s).GetName = st.GetName := h1.2
    simp only [OpenPreviousDataWin, List.foldl_cons] at h2 ⊢
    rw [h2.1, h2.2, h1.1, h1.2, hN]
    refine ⟨?_, rfl⟩
    rcases hr : restoredBySpec env st.GetName s with _ | w
    · simp [List.filterMap_cons, hr]
    · simp [List.filterMap_cons, hr]

/-- The two ways `CreateByKind` can go: nothing is free and nothing happens, or the `try`
block runs once, for the least free number. -/
theorem CreateByKind_cases (env : Env) (d : DataWinDef) (st : GuiWinInput) :
    ((∀ m, 1 ≤ m → m < 1000 → st.candidate d m ∈ st.names) ∧ CreateByKind env d st = st) ∨
    ∃ n, 1 ≤ n ∧ n ≤ 999 ∧ st.candidate d n ∉ st.names ∧
      (∀ m, 1 ≤ m → m < n → st.candidate d m ∈ st.names) ∧
      CreateByKind env d st = tryCreate env d (st.GetName ++ d.name) n st := by
  by_cases h : ∃ n, 1 ≤ n ∧ n ≤ 999 ∧ st.candidate d n ∉ st.names
  · obtain ⟨n, h1, h999, hfree, hmin⟩ := exists_least_free st d h
    exact Or.inr ⟨n, h1, h999, hfree, hmin, CreateByKind_eq_tryCreate env d st n h1 h999 hfree hmin⟩
  · have hfull : ∀ m, 1 ≤ m → m < 1000 → st.candidate d m ∈ st.names := by
      intro m h1 h2
      by_contra hnot
      exact h ⟨m, h1, by omega, hnot⟩
    exact Or.inl ⟨hfull, CreateByKind_eq_self env d st hfull⟩

/-- The `while` loop of the button handler ends within 999 iterations: a larger bound on
the recursion gives the same result. -/
theorem whileWinNumber_fuel (env : Env) (d : DataWinDef) (st : GuiWinInput) (fuel : Nat)
    (hfuel : 999 ≤ fuel) :
    whileWinNumber env d (st.GetName ++ d.name) fuel 1 st = CreateByKind env d st := by
  rcases CreateByKind_cases env d st with ⟨hfull, he⟩ | ⟨n, h1, h999, hfree, hmin, he⟩
  · rw [he]
    exact whileWinNumber_exhausted env d _ st fuel 1 hfull
  · rw [he]
    exact whileWinNumber_found env d _ st n (by omega) hfree fuel 1 h1 (by omega)
      (fun m hm hmn => hmin m hm hmn)

theorem tryCreate_cases (env : Env) (d : DataWinDef) (st : GuiWinInput) (n : Nat) :
    (∃ what, env.createThrows d (st.candidate d n) = some what ∧
      tryCreate env d (st.GetName ++ d.name) n st =
        { st with factoryCalls := st.factoryCalls ++ [(d.name, st.candidate d n)]
                  log := st.log ++ [(LogLevel.ERROR,
                    "new ".toList ++ c_str (st.GetName ++ d.name) ++ to_string n ++ ": ".toList ++ what)] }) ∨
    (env.createThrows d (st.candidate d n) = none ∧
      tryCreate env d (st.GetName ++ d.name) n st =
        { st with dataWindows := st.dataWindows ++ [createdWin st d n]
                  factoryCalls := st.factoryCalls ++ [(d.name, st.candidate d n)] }) := by
  rcases h : env.createThrows d (st.candidate d n) with _ | what
  · exact Or.inr ⟨rfl, tryCreate_ok env d st n h⟩
  · exact Or.inl ⟨what, rfl, tryCreate_error env d st n what h⟩

/-- The title update changes only titles: names, open flags and classes stay. -/
theorem updateChildTitle_frame (t : Str) (w : GuiWinData) :
    (updateChildTitle t w).GetName = w.GetName ∧ (updateChildTitle t w).IsOpen = w.IsOpen ∧
      (updateChildTitle t w).cls = w.cls := by
  unfold updateChildTitle
  dsimp only
  split
  · exact ⟨rfl, rfl, rfl⟩
  · exact ⟨rfl, rfl, rfl⟩

theorem UpdateTitle_frame (st : GuiWinInput) :
    (_UpdateTitle st).dataWindows.map (fun w => (w.GetName, w.IsOpen, w.cls)) =
      st.dataWindows.map (fun w => (w.GetName, w.IsOpen, w.cls)) := by
  simp only [_UpdateTitle, SetTitle, List.map_map]
  apply List.map_congr_left
  intro w _
  have := updateChildTitle_frame (newMainTitle st.GetTitle st.rxVerStr) w
  simp only [Function.comp, this.1, this.2.1, this.2.2]

theorem processSwitch_frame (data : Data) (st : GuiWinInput) :
    (processSwitch data st).dataWindows.map (fun w => (w.GetName, w.IsOpen, w.cls)) =
      st.dataWindows.map (fun w => (w.GetName, w.IsOpen, w.cls)) ∧
    (processSwitch data st).delivered = st.delivered := by
  have hd : ∀ s : GuiWinInput, (_UpdateTitle s).delivered = s.delivered := fun _ => rfl
  unfold processSwitch
  split
  · split
    · split
      · exact ⟨UpdateTitle_frame _, hd _⟩
      · exact ⟨rfl, rfl⟩
    · exact ⟨rfl, rfl⟩
  · exact ⟨rfl, rfl⟩
  · exact ⟨rfl, rfl⟩
  · exact ⟨rfl, rfl⟩
  · exact ⟨UpdateTitle_frame _, hd _⟩
  · split
    · dsimp only
      split
      · exact ⟨rfl, rfl⟩
      · exact ⟨rfl, rfl⟩
    · exact ⟨rfl, rfl⟩

theorem processLoop_eq (env : Env) (data : Data) (ws : List GuiWinData) :
    processLoop env data ws =
      (ws.map (fun w => w.ProcessData env data), ws.map (fun w => (w, data))) := by
  induction ws with
  | nil => rfl
  | cons w ws ih => simp [processLoop, ih]

/-! ### The search `find` -/

/-- When `find` reports no occurrence there is none, at any position. -/
theorem findFrom_none (pat : Str) :
    ∀ (s : Str) (i : Nat), findFrom pat s i = none → ∀ k, k ≤ s.length → ¬ pat <+: s.drop k := by
  intro s
  induction s with
  | nil =>
    intro i h k _ hpre
    by_cases hp : pat = []
    · simp [findFrom, hp] at h
    · simp only [List.drop_nil, List.prefix_nil] at hpre
      exact hp hpre
  | cons c cs ih =>
    intro i h k hk hpre
    by_cases hb : pat.isPrefixOf (c :: cs) = true
    · simp [findFrom, hb] at h
    · simp only [findFrom, hb, if_false] at h
      cases k with
      | zero => exact hb (List.isPrefixOf_iff_prefix.2 hpre)
      | succ k =>
        simp only [List.drop_succ_cons] at hpre
        exact ih (i + 1) h k (by simpa using hk) hpre

theorem findFrom_shift (pat : Str) :
    ∀ (s : Str) (i : Nat), findFrom pat s i = (findFrom pat s 0).map (fun j => j + i) := by
  intro s
  induction s with
  | nil =>
    intro i
    by_cases hp : pat = []
    · simp [findFrom, hp]
    · simp [findFrom, hp]
  | cons a s ih =>
    intro i
    by_cases hb : pat.isPrefixOf (a :: s) = true
    · simp [findFrom, hb]
    · simp only [findFrom, hb, Bool.false_eq_true, if_false]
      rw [ih (i + 1), ih (0 + 1), Option.map_map]
      congr 1
      funext j
      simp only [Function.comp]
      omega

theorem find_cons (pat : Str) (a : Char) (s : Str) :
    find (a :: s) pat =
      if pat.isPrefixOf (a :: s) then some 0 else (find s pat).map (fun j => j + 1) := by
  unfold find
  by_cases hb : pat.isPrefixOf (a :: s) = true
  · simp [findFrom, hb]
  · simp only [findFrom, hb, Bool.false_eq_true, if_false]
    exact findFrom_shift pat s (0 + 1)

theorem find_none (s pat : Str) (h : find s pat = none) :
    ∀ k, k ≤ s.length → ¬ pat <+: s.drop k :=
  findFrom_none pat s 0 h

/-- The search finds the occurrence that follows `P` when there is none that starts inside
`P`. -/
theorem find_append (pat t : Str) (ht : pat <+: t) :
    ∀ (P : Str), (∀ k, k < P.length → ¬ pat <+: (P ++ t).drop k) →
      find (P ++ t) pat = some P.length := by
  intro P
  induction P with
  | nil =>
    intro _
    cases t with
    | nil =>
      have : pat = [] := List.prefix_nil.1 ht
      simp [find, findFrom, this]
    | cons c cs =>
      have : pat.isPrefixOf (c :: cs) = true := List.isPrefixOf_iff_prefix.2 ht
      simp [find_cons, this]
  | cons a P ih =>
    intro h
    have h0 : ¬ pat.isPrefixOf (a :: (P ++ t)) = true := fun hb =>
      h 0 (by simp) (by simpa using List.isPrefixOf_iff_prefix.1 hb)
    have hrec := ih (fun k hk => by
      have := h (k + 1) (by simpa using hk)
      simpa using this)
    simp only [List.cons_append, find_cons, h0, Bool.false_eq_true, if_false, hrec,
      List.length_cons, Option.map_some']

/-- Cutting a string at the position `find` reports for a character keeps what stands
before the first occurrence of the character. -/
theorem find_char_cut (c : Char) :
    ∀ (s : Str),
      (match find s [c] with
        | some pos => erase s pos
        | none => s) = s.takeWhile (fun x => x != c) := by
  intro s
  induction s with
  | nil => simp [find, findFrom]
  | cons a s ih =>
    by_cases hac : a = c
    · subst hac
      simp [find_cons, List.isPrefixOf, erase]
    · have hb : ¬ List.isPrefixOf [c] (a :: s) = true := by
        simp [List.isPrefixOf, Ne.symm hac]
      rw [find_cons, if_neg hb, List.takeWhile_cons_of_pos (by simpa using hac), ← ih]
      rcases find s [c] with _ | pos
      · rfl
      · simp [erase]

/-- In a child title made of a parent title without `" - "` that does not end in `" -"`,
the delimiter and a rest, the first `" - "` is the delimiter. -/
theorem find_delimiter (P rest : Str) (hno : find P " - ".toList = none)
    (hend : ¬ " -".toList <:+ P) :
    find (P ++ " - ".toList ++ rest) " - ".toList = some P.length := by
  have hpat : " - ".toList = [' ', '-', ' '] := rfl
  have hsuf : " -".toList = [' ', '-'] := rfl
  rw [List.append_assoc]
  apply find_append _ _ (List.prefix_append _ _)
  intro k hk hpre
  rw [List.drop_append_of_le_length (Nat.le_of_lt hk)] at hpre
  rcases hq : P.drop k with _ | ⟨a, _ | ⟨b, _ | ⟨c, q⟩⟩⟩
  · have := congrArg List.length hq
    simp only [List.length_drop, List.length_nil] at this
    omega
  · rw [hq, hpat] at hpre
    simp [List.cons_prefix_cons] at hpre
  · rw [hq, hpat] at hpre
    simp only [List.cons_append, List.nil_append, List.cons_prefix_cons] at hpre
    apply hend
    rw [hsuf, hpre.1, hpre.2.1, ← hq]
    exact List.drop_suffix k P
  · rw [hq, hpat] at hpre
    simp only [List.cons_append, List.cons_prefix_cons, List.nil_prefix, and_true] at hpre
    obtain ⟨h1, h2, h3⟩ := hpre
    subst h1 h2 h3
    apply find_none P _ hno k (Nat.le_of_lt hk)
    rw [hq, hpat]
    simp [List.cons_prefix_cons]

/-- The new main title in words: the title up to its first colon, then the version after
a colon and a blank when there is a version. -/
theorem newMainTitle_eq (title ver : Str) :
    newMainTitle title ver =
      title.takeWhile (fun c => c != ':') ++ (if ver = [] then [] else ": ".toList ++ ver) := by
  unfold newMainTitle
  simp only [find_char_cut ':' title]
  cases ver with
  | nil => simp
  | cons v vs => simp

theorem UpdateTitle_getElem (st : GuiWinInput) (i : Nat) :
    (_UpdateTitle st).dataWindows[i]? =
      (st.dataWindows[i]?).map (updateChildTitle (_UpdateTitle st).GetTitle) := by
  simp [_UpdateTitle, SetTitle, GetTitle, List.getElem?_map]

/-! ### Decimal numbers and the kind names of the catalog -/

theorem digitChar_toNat : ∀ m, m < 10 → (Nat.digitChar m).toNat - 48 = m := by decide

/-- Reading the digits written by `Nat.toDigitsCore` gives the number back. -/
theorem toDigitsCore_foldl :
    ∀ (fuel n : Nat) (ds : List Char), n < fuel →
      List.foldl (fun acc c => 10 * acc + (c.toNat - 48)) 0 (Nat.toDigitsCore 10 fuel n ds) =
        List.foldl (fun acc c => 10 * acc + (c.toNat - 48)) n ds := by
  intro fuel
  induction fuel with
  | zero => intro n ds h; omega
  | succ fuel ih =>
    intro n ds h
    simp only [Nat.toDigitsCore]
    have hv := digitChar_toNat (n % 10) (Nat.mod_lt _ (by decide))
    split
    · simp only [List.foldl_cons, hv]
      congr 1
      omega
    · rw [ih (n / 10) _ (by omega)]
      simp only [List.foldl_cons, hv]
      congr 1
      omega

theorem to_string_injective (a b : Nat) (h : to_string a = to_string b) : a = b := by
  have ha := toDigitsCore_foldl (a + 1) a [] (Nat.lt_succ_self a)
  have hb := toDigitsCore_foldl (b + 1) b [] (Nat.lt_succ_self b)
  simp only [List.foldl_nil] at ha hb
  unfold to_string Nat.toDigits at h
  rw [← ha, ← hb, h]

theorem dataWinDefs_prefix_free :
    ∀ d ∈ _dataWinDefs, ∀ e ∈ _dataWinDefs, d.name.isPrefixOf e.name = true → d = e := by
  decide

theorem dataWinDefs_cls_injective :
    ∀ d ∈ _dataWinDefs, ∀ e ∈ _dataWinDefs, d.cls = e.cls → d = e := by
  decide

/-- A catalog kind name that starts a name made of a catalog kind name and a number is
that kind name. -/
theorem kind_of_candidate (d e : DataWinDef) (hd : d ∈ _dataWinDefs) (he : e ∈ _dataWinDefs)
    (t : Str) (h : e.name <+: d.name ++ t) : e = d := by
  rcases List.prefix_or_prefix_of_prefix h (List.prefix_append d.name t) with h1 | h1
  · exact dataWinDefs_prefix_free e he d hd (List.isPrefixOf_iff_prefix.2 h1)
  · exact (dataWinDefs_prefix_free d hd e he (List.isPrefixOf_iff_prefix.2 h1)).symm

/-! ### The invariant `WellNamed` -/

theorem CreateByKind_frame (env : Env) (e : DataWinDef) (st : GuiWinInput) :
    (CreateByKind env e st).winName = st.winName ∧
    ((CreateByKind env e st).dataWindows = st.dataWindows ∨
      ∃ n, 1 ≤ n ∧ n ≤ 999 ∧
        (CreateByKind env e st).dataWindows = st.dataWindows ++ [createdWin st e n]) := by
  rcases CreateByKind_cases env e st with ⟨_, he⟩ | ⟨n, h1, h999, _, _, he⟩
  · rw [he]; exact ⟨rfl, Or.inl rfl⟩
  · rw [he]
    rcases tryCreate_cases env e st n with ⟨what, _, ht⟩ | ⟨_, ht⟩
    · rw [ht]; exact ⟨rfl, Or.inl rfl⟩
    · rw [ht]; exact ⟨rfl, Or.inr ⟨n, h1, h999, rfl⟩⟩

theorem createdWin_wellNamed (st : GuiWinInput) (e : DataWinDef) (he : e ∈ _dataWinDefs)
    (n : Nat) :
    ∃ e' ∈ _dataWinDefs, (createdWin st e n).cls = e'.cls ∧
      (st.GetName ++ e'.name) <+: (createdWin st e n).GetName :=
  ⟨e, he, rfl, List.prefix_append _ _⟩

theorem WellNamed_create (env : Env) (e : DataWinDef) (he : e ∈ _dataWinDefs)
    (st : GuiWinInput) (h : WellNamed st) : WellNamed (CreateByKind env e st) := by
  have hf := CreateByKind_frame env e st
  intro w hw
  have hN : (CreateByKind env e st).GetName = st.GetName := hf.1
  rw [hN]
  rcases hf.2 with heq | ⟨n, _, _, heq⟩
  · rw [heq] at hw
    exact h w hw
  · rw [heq] at hw
    rcases List.mem_append.1 hw with hw | hw
    · exact h w hw
    · rw [List.mem_singleton.1 hw]
      exact createdWin_wellNamed st e he n

/-- A window of another class does not have a name of the kind `d`. -/
theorem candidate_not_other (st : GuiWinInput) (h : WellNamed st) (d : DataWinDef)
    (hd : d ∈ _dataWinDefs) (w : GuiWinData) (hw : w ∈ st.dataWindows) (hcls : w.cls ≠ d.cls)
    (n : Nat) : w.GetName ≠ st.candidate d n := by
  intro hname
  obtain ⟨e, he, hc, hpre⟩ := h w hw
  rw [hname] at hpre
  unfold candidate at hpre
  rw [List.append_assoc, List.prefix_append_right_inj] at hpre
  have := kind_of_candidate d e hd he _ hpre
  exact hcls (by rw [hc, this])

/-! ### Numbering without gaps -/

/-- One more creation of the kind `d` takes the next number. -/
theorem Numbered_create_same (env : Env) (N : Str) (d : DataWinDef) (hd : d ∈ _dataWinDefs)
    (hok : ∀ nm, env.createThrows d nm = none) (j : Nat) (hj : j < 999) (s : GuiWinInput)
    (h : Numbered N d j s) : Numbered N d (j + 1) (CreateByKind env d s) := by
  obtain ⟨hN, hwn, hnum⟩ := h
  have hcand : ∀ n, s.candidate d n = N ++ d.name ++ to_string n := by
    intro n; unfold candidate; rw [hN]
  have hsub : ∀ x, x ∈ (s.dataWindows.filter (fun w => w.cls = d.cls)).map GuiWinData.GetName →
      x ∈ s.names := by
    intro x hx
    obtain ⟨w, hw, rfl⟩ := List.mem_map.1 hx
    exact List.mem_map.2 ⟨w, (List.mem_filter.1 hw).1, rfl⟩
  have hmin : ∀ m, 1 ≤ m → m < j + 1 → s.candidate d m ∈ s.names := by
    intro m h1 h2
    apply hsub
    rw [hnum, hcand]
    exact List.mem_map.2 ⟨m, List.mem_range'_1.2 ⟨h1, by omega⟩, rfl⟩
  have hfree : s.candidate d (j + 1) ∉ s.names := by
    intro hin
    obtain ⟨w, hw, hname⟩ := List.mem_map.1 hin
    by_cases hcls : w.cls = d.cls
    · have hwf : w.GetName ∈
          (s.dataWindows.filter (fun w => w.cls = d.cls)).map GuiWinData.GetName :=
        List.mem_map.2 ⟨w, List.mem_filter.2 ⟨hw, by simpa using hcls⟩, rfl⟩
      rw [hnum] at hwf
      obtain ⟨m, hm, hmeq⟩ := List.mem_map.1 hwf
      rw [hname, hcand] at hmeq
      have := to_string_injective _ _ (List.append_cancel_left hmeq)
      have := (List.mem_range'_1.1 hm).2
      omega
    · exact candidate_not_other s hwn d hd w hw hcls (j + 1) hname
  have he : CreateByKind env d s =
      { s with dataWindows := s.dataWindows ++ [createdWin s d (j + 1)]
               factoryCalls := s.factoryCalls ++ [(d.name, s.candidate d (j + 1))] } := by
    rw [CreateByKind_eq_tryCreate env d s (j + 1) (by omega) (by omega) hfree hmin,
      tryCreate_ok env d s (j + 1) (hok _)]
  refine ⟨?_, WellNamed_create env d hd s hwn, ?_⟩
  · rw [he]; exact hN
  · rw [he]
    have hc : (decide ((createdWin s d (j + 1)).cls = d.cls)) = true := by
      simp [createdWin]
    simp only [List.filter_append, List.filter_cons, hc, if_true, List.filter_nil,
      List.map_append, List.map_cons, List.map_nil, hnum, List.range'_1_concat]
    congr 1
    show [s.candidate d (j + 1)] = _
    rw [hcand, Nat.add_comm 1 j]

/-- A creation of another kind leaves the numbering of the kind `d` as it is. -/
theorem Numbered_create_other (env : Env) (N : Str) (d e : DataWinDef)
    (hd : d ∈ _dataWinDefs) (he : e ∈ _dataWinDefs) (hne : e ≠ d) (j : Nat) (s : GuiWinInput)
    (h : Numbered N d j s) : Numbered N d j (CreateByKind env e s) := by
  obtain ⟨hN, hwn, hnum⟩ := h
  have hf := CreateByKind_frame env e s
  refine ⟨hf.1.trans hN, WellNamed_create env e he s hwn, ?_⟩
  rcases hf.2 with heq | ⟨n, _, _, heq⟩
  · rw [heq]; exact hnum
  · rw [heq]
    have hc : (decide ((createdWin s e n).cls = d.cls)) = false := by
      have : e.cls ≠ d.cls := fun hcls => hne (dataWinDefs_cls_injective e he d hd hcls)
      simpa [createdWin] using this
    simp only [List.filter_append, List.filter_cons, hc, Bool.false_eq_true, if_false,
      List.filter_nil, List.append_nil, hnum]

theorem Numbered_createAll (env : Env) (N : Str) (d : DataWinDef) (hd : d ∈ _dataWinDefs)
    (hok : ∀ nm, env.createThrows d nm = none) :
    ∀ (ops : List DataWinDef), (∀ e ∈ ops, e ∈ _dataWinDefs) →
      ∀ (j : Nat) (s : GuiWinInput), Numbered N d j s → j + ops.count d ≤ 999 →
        Numbered N d (j + ops.count d) (createAll env ops s) := by
  intro ops
  induction ops with
  | nil => intro _ j s h _; simpa [createAll] using h
  | cons e ops ih =>
    intro hops j s h hk
    have he : e ∈ _dataWinDefs := hops e (List.mem_cons_self _ _)
    have hrest : ∀ x ∈ ops, x ∈ _dataWinDefs := fun x hx => hops x (List.mem_cons_of_mem _ hx)
    by_cases hed : e = d
    · subst hed
      rw [List.count_cons_self] at hk ⊢
      have h1 := Numbered_create_same env N e hd hok j (by omega) s h
      have h2 := ih hrest (j + 1) (CreateByKind env e s) h1 (by omega)
      have : j + (ops.count e + 1) = j + 1 + ops.count e := by omega
      rw [this]
      exact h2
    · rw [List.count_cons_of_ne (Ne.symm hed)] at hk ⊢
      have h1 := Numbered_create_other env N d e hd he hed j s h
      exact ih hrest j (CreateByKind env e s) h1 hk

/-! ### Every reachable state is well named -/

theorem ProcessData_names (env : Env) (data : Data) (st : GuiWinInput) :
    (_ProcessData env data st).dataWindows.map (fun w => (w.GetName, w.cls)) =
      st.dataWindows.map (fun w => (w.GetName, w.cls)) ∧
    (_ProcessData env data st).winName = st.winName := by
  have hf := processSwitch_frame data st
  have hdw : (_ProcessData env data st).dataWindows =
      (processSwitch data st).dataWindows.map (fun w => w.ProcessData env data) := by
    simp [_ProcessData, processLoop_eq]
  constructor
  · have h2 := congrArg (List.map (fun p : Str × Bool × Str => (p.1, p.2.2))) hf.1
    simp only [List.map_map] at h2
    rw [hdw, List.map_map]
    exact h2
  · have hU : ∀ s : GuiWinInput, (_UpdateTitle s).winName = s.winName := fun _ => rfl
    show (processSwitch data st).winName = st.winName
    unfold processSwitch
    split
    · split
      · split
        · exact hU _
        · rfl
      · rfl
    · rfl
    · rfl
    · rfl
    · exact hU _
    · split
      · dsimp only
        split
        · rfl
        · rfl
      · rfl

theorem WellNamed_of_names (st st2 : GuiWinInput) (hN : st2.winName = st.winName)
    (hsub : ∀ p ∈ st2.dataWindows.map (fun w => (w.GetName, w.cls)),
      p ∈ st.dataWindows.map (fun w => (w.GetName, w.cls)))
    (h : WellNamed st) : WellNamed st2 := by
  intro w hw
  have hp := hsub (w.GetName, w.cls) (List.mem_map.2 ⟨w, hw, rfl⟩)
  obtain ⟨v, hv, hvw⟩ := List.mem_map.1 hp
  have h1 : v.GetName = w.GetName := congrArg Prod.fst hvw
  have h2 : v.cls = w.cls := congrArg Prod.snd hvw
  obtain ⟨e, he, hc, hpre⟩ := h v hv
  refine ⟨e, he, h2 ▸ hc, ?_⟩
  have hG : st2.GetName = st.GetName := hN
  rw [hG, ← h1]
  exact hpre

theorem WellNamed_sweep (env : Env) (st : GuiWinInput) (h : WellNamed st) :
    WellNamed (DrawDataWindows env st) := by
  unfold DrawDataWindows
  split
  · exact h
  · refine WellNamed_of_names st _ rfl ?_ h
    intro p hp
    simp only [drawLoop_eq, List.map_map] at hp
    obtain ⟨w, hw, rfl⟩ := List.mem_map.1 hp
    exact List.mem_map.2 ⟨w, (List.mem_filter.1 hw).1, rfl⟩

theorem restoredBySpec_wellNamed (env : Env) (N s : Str) (w : GuiWinData)
    (h : restoredBySpec env N s = some w) :
    ∃ e ∈ _dataWinDefs, w.cls = e.cls ∧ (N ++ e.name) <+: w.GetName := by
  unfold restoredBySpec at h
  split at h
  · split at h
    · rename_i e hfind
      split at h
      · have hw : restoredWin N e (s.drop N.length) = w := Option.some.inj h
        refine ⟨e, List.mem_of_find?_eq_some hfind, by rw [← hw]; rfl, ?_⟩
        have hp : e.name.isPrefixOf (s.drop N.length) = true := by
          simpa using List.find?_some hfind
        rw [← hw]
        show (N ++ e.name) <+: (N ++ s.drop N.length)
        exact (List.prefix_append_right_inj N).2 (List.isPrefixOf_iff_prefix.1 hp)
      · cases h
    · cases h
  · cases h

theorem WellNamed_restore (env : Env) (saved : List Str) (st : GuiWinInput)
    (h : WellNamed st) : WellNamed (OpenPreviousDataWin env saved st) := by
  have hd := OpenPreviousDataWin_dataWindows env saved st
  intro w hw
  have hN : (OpenPreviousDataWin env saved st).GetName = st.GetName := hd.2
  rw [hN]
  rw [hd.1] at hw
  rcases List.mem_append.1 hw with hw | hw
  · exact h w hw
  · obtain ⟨s, _, hs⟩ := List.mem_filterMap.1 hw
    exact restoredBySpec_wellNamed env st.GetName s w hs

theorem reachable_wellNamed (env : Env) (st : GuiWinInput) (h : Reachable env st) :
    WellNamed st := by
  induction h with
  | fresh name title => intro w hw; cases hw
  | create st d _ hd ih => exact WellNamed_create env d hd st ih
  | restore st saved _ ih => exact WellNamed_restore env saved st ih
  | sweep st _ ih => exact WellNamed_sweep env st ih
  | data st data _ ih =>
    have hp := ProcessData_names env data st
    exact WellNamed_of_names st _ hp.2 (fun p hp2 => hp.1 ▸ hp2) ih
  | other st st2 _ hN hW ih =>
    exact WellNamed_of_names st st2 hN (fun p hp2 => hW ▸ hp2) ih

/-! ### Distinct names on the button path and in the sweep -/

/-- The button handler keeps the names pairwise distinct: it adds a name only after it
found that no data window has it. -/
theorem CreateByKind_names_nodup (env : Env) (d : DataWinDef) (st : GuiWinInput)
    (h : st.names.Nodup) : (CreateByKind env d st).names.Nodup := by
  rcases CreateByKind_cases env d st with ⟨_, he⟩ | ⟨n, _, _, hfree, _, he⟩
  · rw [he]; exact h
  · rw [he]
    rcases tryCreate_cases env d st n with ⟨what, _, ht⟩ | ⟨_, ht⟩
    · rw [ht]; exact h
    · rw [ht]
      show (List.map GuiWinData.GetName (st.dataWindows ++ [createdWin st d n])).Nodup
      rw [List.map_append, List.nodup_append]
      refine ⟨h, List.nodup_singleton _, ?_⟩
      intro x hx hx2
      rw [List.map_singleton, List.mem_singleton] at hx2
      subst hx2
      exact hfree hx

/-- The sweep keeps the names pairwise distinct. -/
theorem DrawDataWindows_names_nodup (env : Env) (st : GuiWinInput) (h : st.names.Nodup) :
    (DrawDataWindows env st).names.Nodup := by
  unfold DrawDataWindows
  split
  · exact h
  · show (List.map GuiWinData.GetName (drawLoop env st.dataWindows)).Nodup
    rw [drawLoop_eq, List.map_map]
    have : (GuiWinData.GetName ∘ GuiWinData.DrawWindow env) = GuiWinData.GetName := rfl
    rw [this]
    exact h.sublist (List.Sublist.map _ (List.filter_sublist _))

/-! ### The log of the restore -/

/-- The loop over the catalog rows in the restore of one remainder, in full. -/
theorem restoreDefs_eq (env : Env) (N name : Str) :
    ∀ (defs : List DataWinDef), (∀ d ∈ defs, NUL ∉ d.name) → ∀ (st : GuiWinInput),
      restoreDefs env N name defs st =
        match defs.find? (fun d => d.name.isPrefixOf name) with
        | none => (st, none)
        | some d =>
          match env.createThrows d (N ++ name) with
          | some what =>
            ({ st with factoryCalls := st.factoryCalls ++ [(d.name, N ++ name)] }, some what)
          | none =>
            ({ st with factoryCalls := st.factoryCalls ++ [(d.name, N ++ name)]
                       dataWindows := st.dataWindows ++ [restoredWin N d name] }, none) := by
  intro defs
  induction defs with
  | nil => intro _ st; simp [restoreDefs]
  | cons d rest ih =>
    intro hd st
    have hdn : NUL ∉ d.name := hd d (List.mem_cons_self _ _)
    have hrest : ∀ d ∈ rest, NUL ∉ d.name := fun x hx => hd x (List.mem_cons_of_mem _ hx)
    have hlen : strlen d.name = d.name.length := strlen_eq_length _ hdn
    by_cases hpre : d.name <+: name
    · have hz : strncmp (c_str name) d.name (strlen d.name) = 0 := by
        rw [hlen]; exact (strncmp_eq_zero_iff _ hdn name).2 hpre
      have hb : d.name.isPrefixOf name = true := List.isPrefixOf_iff_prefix.2 hpre
      have hsub : substr name (strlen d.name) = .ok (name.drop d.name.length) := by
        have : ¬ d.name.length > name.length := Nat.not_lt.2 hpre.length_le
        simp [substr, hlen, this]
      rcases hthrow : env.createThrows d (N ++ name) with _ | what
      · simp [restoreDefs, hz, hb, DataWinDef.create, hthrow, hsub, _AddDataWindow,
          restoredWin, GuiWinData.Open, GuiWinData.SetTitle, GuiWinData.mk0]
      · simp [restoreDefs, hz, hb, DataWinDef.create, hthrow]
    · have hz : strncmp (c_str name) d.name (strlen d.name) ≠ 0 := by
        rw [hlen]; exact fun h => hpre ((strncmp_eq_zero_iff _ hdn name).1 h)
      have hb : d.name.isPrefixOf name = false := by
        rcases hx : d.name.isPrefixOf name with _ | _
        · rfl
        · exact absurd (List.isPrefixOf_iff_prefix.1 hx) hpre
      have := ih hrest st
      simp only [restoreDefs, hz, ne_eq, not_false_eq_true, if_true, List.find?_cons, hb]
      exact this

/-- The log after the restore of one saved name. -/
theorem restoreOne_log (env : Env) (st : GuiWinInput) (s : Str) :
    (restoreOne env st s).log = st.log ++ (restoreWarning env st.GetName s).toList := by
  by_cases hlen : st.GetName.length ≤ s.length
  · have hsub : substr s st.GetName.length = .ok (s.drop st.GetName.length) := by
      have : ¬ st.GetName.length > s.length := Nat.not_lt.2 hlen
      simp [substr, this]
    have h := restoreDefs_eq env st.GetName (s.drop st.GetName.length) _dataWinDefs
      dataWinDefs_no_NUL st
    simp only [restoreOne, hsub, h, restoreWarning, hlen, if_true]
    generalize _dataWinDefs.find? (fun d => d.name.isPrefixOf (s.drop st.GetName.length)) = o
    rcases o with _ | d
    · simp
    · rcases hc : env.createThrows d (st.GetName ++ s.drop st.GetName.length) with _ | what
      · simp [hc]
      · simp [hc, restoreWarn]
  · have hsub : substr s st.GetName.length = .error () := by
      have : st.GetName.length > s.length := Nat.lt_of_not_le hlen
      simp [substr, this]
    simp [restoreOne, hsub, restoreWarn, restoreWarning, hlen]

theorem OpenPreviousDataWin_log (env : Env) (saved : List Str) :
    ∀ st : GuiWinInput,
      (OpenPreviousDataWin env saved st).log =
        st.log ++ saved.filterMap (restoreWarning env st.GetName) := by
  induction saved with
  | nil => intro st; simp [OpenPreviousDataWin]
  | cons s rest ih =>
    intro st
    have h1 := restoreOne_log env st s
    have h2 := ih (restoreOne env st s)
    have hN : (restoreOne env st s).GetName = st.GetName := (restoreOne_dataWindows env st s).2
    simp only [OpenPreviousDataWin, List.foldl_cons] at h2 ⊢
    rw [h2, h1, hN]
    rcases hr : restoreWarning env st.GetName s with _ | w
    · simp [List.filterMap_cons, hr]
    · simp [List.filterMap_cons, hr]

/-- With factories that never throw, a saved name gives a window, or a warning, or is
unmatched, and only one of the three. -/
theorem restore_three_ways (env : Env) (hok : ∀ d nm, env.createThrows d nm = none)
    (N : Str) (saved : List Str) :
    (saved.filterMap (restoredBySpec env N)).length +
      (saved.filterMap (restoreWarning env N)).length +
      (saved.filter (unmatched N)).length = saved.length := by
  induction saved with
  | nil => rfl
  | cons s rest ih =>
    by_cases hlen : N.length ≤ s.length
    · rcases hf : _dataWinDefs.find? (fun d => d.name.isPrefixOf (s.drop N.length)) with _ | d
      · have h1 : restoredBySpec env N s = none := by simp [restoredBySpec, hlen, hf]
        have h2 : restoreWarning env N s = none := by simp [restoreWarning, hlen, hf]
        have h3 : unmatched N s = true := by simp [unmatched, hlen, hf]
        simp only [List.filterMap_cons, h1, h2, List.filter_cons, h3, if_true, List.length_cons]
        omega
      · have h1 : restoredBySpec env N s = some (restoredWin N d (s.drop N.length)) := by
          simp [restoredBySpec, hlen, hf, hok]
        have h2 : restoreWarning env N s = none := by simp [restoreWarning, hlen, hf, hok]
        have h3 : unmatched N s = false := by simp [unmatched, hf]
        simp only [List.filterMap_cons, h1, h2, List.filter_cons, h3, Bool.false_eq_true,
          if_false, List.length_cons]
        omega
    · have h1 : restoredBySpec env N s = none := by simp [restoredBySpec, hlen]
      have h2 : restoreWarning env N s =
          some (LogLevel.WARNING, "new ".toList ++ c_str s ++ ": ".toList ++ env.outOfRangeWhat) := by
        simp [restoreWarning, hlen]
      have h3 : unmatched N s = false := by simp [unmatched, hlen]
      simp only [List.filterMap_cons, h1, h2, List.filter_cons, h3, Bool.false_eq_true,
        if_false, List.length_cons]
      omega

theorem restoreOne_unmatched (env : Env) (st : GuiWinInput) (s : Str)
    (h : unmatched st.GetName s = true) : restoreOne env st s = st := by
  simp only [unmatched, Bool.and_eq_true, decide_eq_true_eq, Option.isNone_iff_eq_none] at h
  have hsub : substr s st.GetName.length = .ok (s.drop st.GetName.length) := by
    have : ¬ st.GetName.length > s.length := Nat.not_lt.2 h.1
    simp [substr, this]
  have hd := restoreDefs_eq env st.GetName (s.drop st.GetName.length) _dataWinDefs
    dataWinDefs_no_NUL st
  rw [h.2] at hd
  simp only [restoreOne, hsub, hd]

/-- With factories that never throw, the warnings are those for the names shorter than the
parent name. -/
theorem restoreWarning_short (env : Env) (hok : ∀ d nm, env.createThrows d nm = none)
    (N : Str) (saved : List Str) :
    saved.filterMap (restoreWarning env N) =
      (saved.filter (fun s => decide (s.length < N.length))).map
        (fun s => (LogLevel.WARNING,
          "new ".toList ++ c_str s ++ ": ".toList ++ env.outOfRangeWhat)) := by
  induction saved with
  | nil => rfl
  | cons s rest ih =>
    by_cases hlen : N.length ≤ s.length
    · have h2 : restoreWarning env N s = none := by
        simp only [restoreWarning, hlen, if_true]
        split
        · simp [hok]
        · rfl
      have h3 : decide (s.length < N.length) = false := by simpa using hlen
      simp only [List.filterMap_cons, h2, List.filter_cons, h3, Bool.false_eq_true, if_false, ih]
    · have h2 : restoreWarning env N s =
          some (LogLevel.WARNING, "new ".toList ++ c_str s ++ ": ".toList ++ env.outOfRangeWhat) := by
        simp [restoreWarning, hlen]
      have h3 : decide (s.length < N.length) = true := by simpa using hlen
      simp only [List.filterMap_cons, h2, List.filter_cons, h3, if_true, List.map_cons, ih]

/-! ### The catalog as a table of prefix-free names -/

/-- The prefix test of the restore, for a catalog row: equal by `strncmp` means prefix. -/
theorem matches_iff_starts (d : DataWinDef) (hd : d ∈ _dataWinDefs) (r : Str) :
    strncmp (c_str r) d.name (strlen d.name) = 0 ↔ d.name <+: r := by
  have hn := dataWinDefs_no_NUL d hd
  rw [strlen_eq_length _ hn]
  exact strncmp_eq_zero_iff _ hn r

/-- Two catalog rows whose names start the same string are the same row. -/
theorem prefix_unique (d e : DataWinDef) (hd : d ∈ _dataWinDefs) (he : e ∈ _dataWinDefs)
    (r : Str) (h1 : d.name <+: r) (h2 : e.name <+: r) : d = e := by
  rcases List.prefix_or_prefix_of_prefix h1 h2 with h | h
  · exact dataWinDefs_prefix_free d hd e he (List.isPrefixOf_iff_prefix.2 h)
  · exact (dataWinDefs_prefix_free e he d hd (List.isPrefixOf_iff_prefix.2 h)).symm

/-! ### Saving and restoring -/

theorem CreatedForm_of_names (st st2 : GuiWinInput) (hN : st2.winName = st.winName)
    (hsub : ∀ p ∈ st2.dataWindows.map (fun w => (w.GetName, w.cls)),
      p ∈ st.dataWindows.map (fun w => (w.GetName, w.cls)))
    (h : CreatedForm st) : CreatedForm st2 := by
  intro w hw
  have hp := hsub (w.GetName, w.cls) (List.mem_map.2 ⟨w, hw, rfl⟩)
  obtain ⟨v, hv, hvw⟩ := List.mem_map.1 hp
  have h1 : v.GetName = w.GetName := congrArg Prod.fst hvw
  have h2 : v.cls = w.cls := congrArg Prod.snd hvw
  obtain ⟨d, hd, n, hname, hc⟩ := h v hv
  have hG : st2.GetName = st.GetName := hN
  exact ⟨d, hd, n, by rw [hG, ← h1]; exact hname, by rw [← h2]; exact hc⟩

theorem created_form (env : Env) (st : GuiWinInput) (h : Created env st) : CreatedForm st := by
  induction h with
  | fresh name title => intro w hw; cases hw
  | create st d _ hd ih =>
    have hf := CreateByKind_frame env d st
    intro w hw
    have hN : (CreateByKind env d st).GetName = st.GetName := hf.1
    rw [hN]
    rcases hf.2 with heq | ⟨n, _, _, heq⟩
    · rw [heq] at hw
      exact ih w hw
    · rw [heq] at hw
      rcases List.mem_append.1 hw with hw | hw
      · exact ih w hw
      · rw [List.mem_singleton.1 hw]
        exact ⟨d, hd, n, rfl, rfl⟩
  | sweep st _ ih =>
    unfold DrawDataWindows
    split
    · exact ih
    · refine CreatedForm_of_names st _ rfl ?_ ih
      intro p hp
      simp only [drawLoop_eq, List.map_map] at hp
      obtain ⟨w, hw, rfl⟩ := List.mem_map.1 hp
      exact List.mem_map.2 ⟨w, (List.mem_filter.1 hw).1, rfl⟩
  | other st st2 _ hN hW ih =>
    exact CreatedForm_of_names st st2 hN (fun p hp2 => hW ▸ hp2) ih

/-- The first catalog row whose name starts a string that the name of the row `d` starts
is `d`. -/
theorem find_kind (d : DataWinDef) (hd : d ∈ _dataWinDefs) (r : Str) (h : d.name <+: r) :
    _dataWinDefs.find? (fun e => e.name.isPrefixOf r) = some d := by
  rcases hf : _dataWinDefs.find? (fun e => e.name.isPrefixOf r) with _ | e
  · have := List.find?_eq_none.1 hf d hd
    exact absurd (List.isPrefixOf_iff_prefix.2 h) (by simpa using this)
  · have he : e ∈ _dataWinDefs := List.mem_of_find?_eq_some hf
    have hp : e.name.isPrefixOf r = true := by simpa using List.find?_some hf
    rw [hf, prefix_unique e d he hd r (List.isPrefixOf_iff_prefix.1 hp) h]

/-- A name built by the button handler is restored to a window of the same name and
class, when the factory does not throw. -/
theorem restoredBySpec_candidate (env : Env) (hok : ∀ d nm, env.createThrows d nm = none)
    (N : Str) (d : DataWinDef) (hd : d ∈ _dataWinDefs) (t : Str) :
    restoredBySpec env N (N ++ d.name ++ t) = some (restoredWin N d (d.name ++ t)) := by
  have hdrop : (N ++ d.name ++ t).drop N.length = d.name ++ t := by
    rw [List.append_assoc, List.drop_left]
  have hlen : N.length ≤ (N ++ d.name ++ t).length := by
    simp only [List.length_append]; omega
  simp only [restoredBySpec, hlen, if_true, hdrop,
    find_kind d hd (d.name ++ t) (List.prefix_append _ _), hok]

theorem restore_created (env : Env) (hok : ∀ d nm, env.createThrows d nm = none) (N : Str) :
    ∀ ws : List GuiWinData,
      (∀ w ∈ ws, ∃ d ∈ _dataWinDefs, ∃ n : Nat,
        w.GetName = N ++ d.name ++ to_string n ∧ w.cls = d.cls) →
      ((ws.map GuiWinData.GetName).filterMap (restoredBySpec env N)).map
          (fun w => (w.GetName, w.cls)) =
        ws.map (fun w => (w.GetName, w.cls)) := by
  intro ws
  induction ws with
  | nil => intro _; rfl
  | cons w ws ih =>
    intro h
    obtain ⟨d, hd, n, hname, hc⟩ := h w (List.mem_cons_self _ _)
    have hr := restoredBySpec_candidate env hok N d hd (to_string n)
    rw [← hname] at hr
    have hrest := ih (fun v hv => h v (List.mem_cons_of_mem _ hv))
    simp only [List.map_cons, List.filterMap_cons, hr, hrest]
    congr 1
    show (N ++ (d.name ++ to_string n), d.cls) = (w.GetName, w.cls)
    rw [hname, hc, List.append_assoc]

/-! ### The capabilities on the button path -/

theorem CreateByKind_caps (env : Env) (d : DataWinDef) (st : GuiWinInput) :
    (CreateByKind env d st).dataWinCaps = st.dataWinCaps := by
  rcases CreateByKind_cases env d st with ⟨_, he⟩ | ⟨n, _, _, _, _, he⟩
  · rw [he]
  · rw [he]
    rcases tryCreate_cases env d st n with ⟨what, _, ht⟩ | ⟨_, ht⟩
    · rw [ht]
    · rw [ht]

/-- A click on an enabled button keeps the data windows within the capabilities. -/
theorem Permitted_create (env : Env) (d : DataWinDef) (hd : d ∈ _dataWinDefs)
    (st : GuiWinInput) (hen : CHKBITS_ANY d.reqs.bits st.dataWinCaps.bits = true)
    (h : Permitted st) : Permitted (CreateByKind env d st) := by
  have hf := CreateByKind_frame env d st
  intro w hw
  rw [CreateByKind_caps]
  rcases hf.2 with heq | ⟨n, _, _, heq⟩
  · rw [heq] at hw
    exact h w hw
  · rw [heq] at hw
    rcases List.mem_append.1 hw with hw | hw
    · exact h w hw
    · rw [List.mem_singleton.1 hw]
      exact ⟨d, hd, rfl, hen⟩

/-- The buttons keep the data windows within the capabilities, whatever is clicked: a
disabled button creates nothing. -/
theorem Permitted_buttons (env : Env) (clicked : DataWinDef → Bool) :
    ∀ (defs : List DataWinDef), (∀ d ∈ defs, d ∈ _dataWinDefs) →
      ∀ st : GuiWinInput, Permitted st →
        Permitted (defs.foldl
          (fun st d =>
            let disabled := !CHKBITS_ANY d.reqs.bits st.dataWinCaps.bits
            if !disabled && clicked d then CreateByKind env d st else st)
          st) := by
  intro defs
  induction defs with
  | nil => intro _ st h; exact h
  | cons d rest ih =>
    intro hdefs st h
    have hd : d ∈ _dataWinDefs := hdefs d (List.mem_cons_self _ _)
    have hrest : ∀ x ∈ rest, x ∈ _dataWinDefs := fun x hx => hdefs x (List.mem_cons_of_mem _ hx)
    simp only [List.foldl_cons]
    apply ih hrest
    by_cases hc : CHKBITS_ANY d.reqs.bits st.dataWinCaps.bits = true
    · by_cases hcl : clicked d = true
      · simp only [hc, hcl, Bool.not_true, Bool.not_false, Bool.and_self, if_true]
        exact Permitted_create env d hd st hc h
      · simp only [hcl, Bool.and_false, Bool.false_eq_true, if_false]
        exact h
    · simp only [hc, Bool.not_false, Bool.not_true, Bool.false_and, Bool.false_eq_true, if_false]
      exact h

theorem Permitted_DrawDataWinButtons (env : Env) (clicked : DataWinDef → Bool)
    (st : GuiWinInput) (h : Permitted st) : Permitted (_DrawDataWinButtons env clicked st) :=
  Permitted_buttons env clicked _dataWinDefs (fun _ hd => hd) st h

/-! ### The database icon -/

theorem CLIP_unit (x : ℚ) (h0 : 0 ≤ x) (h1 : x ≤ 1) : CLIP x 0 1 = x := by
  unfold CLIP
  split
  · linarith
  · split
    · linarith
    · rfl

/-- The icon index is the integer part of four times the fill: the icons change at 25%,
50% and 75%, and the last icon is shown for a full database only. -/
theorem dbIconIx_eq (s u : Int) (hs : 0 < s) (h0 : 0 ≤ u) (h1 : u ≤ s) :
    dbIconIx s u = 4 * u / s := by
  have hsq : (0 : ℚ) < (s : ℚ) := by exact_mod_cast hs
  have hx0 : (0 : ℚ) ≤ (u : ℚ) / (s : ℚ) := div_nonneg (by exact_mod_cast h0) hsq.le
  have hx1 : (u : ℚ) / (s : ℚ) ≤ 1 := by
    rw [div_le_one hsq]; exact_mod_cast h1
  have hlen : ((dbIcons.length - 1 : Nat) : ℚ) = 4 := by
    simp [dbIcons]
  unfold dbIconIx
  simp only [CLIP_unit _ hx0 hx1, toInt, hlen]
  have h4 : (0 : ℚ) ≤ (u : ℚ) / (s : ℚ) * 4 := by positivity
  rw [if_pos h4]
  have hq : (u : ℚ) / (s : ℚ) * 4 = ((4 * u : Int) : ℚ) / ((s.toNat : Nat) : ℚ) := by
    have hs2 : ((s.toNat : Nat) : ℚ) = (s : ℚ) := by
      have : ((s.toNat : Int)) = s := Int.toNat_of_nonneg hs.le
      exact_mod_cast this
    rw [hs2]; push_cast; ring
  rw [hq]
  have hf := Rat.floor_intCast_div_natCast (4 * u) s.toNat
  rw [Int.toNat_of_nonneg hs.le] at hf
  exact hf

/-- The icon index is an index of the table of five icons. -/
theorem dbIconIx_range (s u : Int) (hs : 0 < s) (h0 : 0 ≤ u) (h1 : u ≤ s) :
    0 ≤ dbIconIx s u ∧ dbIconIx s u ≤ 4 := by
  rw [dbIconIx_eq s u hs h0 h1]
  constructor
  · exact Int.ediv_nonneg (by omega) hs.le
  · have : 4 * u / s ≤ 4 * s / s := Int.ediv_le_ediv hs (by omega)
    rw [Int.mul_ediv_cancel _ (by omega : s ≠ 0)] at this
    exact this

/-! ### The title update, applied twice -/

/-- The position that `find` reports is the position of an occurrence. -/
theorem find_some (pat : Str) :
    ∀ (s : Str) (p : Nat), find s pat = some p → pat <+: s.drop p := by
  intro s
  induction s with
  | nil =>
    intro p h
    by_cases hp : pat = []
    · simp [hp]
    · simp [find, findFrom, hp] at h
  | cons a s ih =>
    intro p h
    rw [find_cons] at h
    by_cases hb : pat.isPrefixOf (a :: s) = true
    · rw [if_pos hb] at h
      have hp0 : p = 0 := (Option.some.inj h).symm
      subst hp0
      exact List.isPrefixOf_iff_prefix.1 hb
    · rw [if_neg hb] at h
      rcases hf : find s pat with _ | q
      · rw [hf] at h; cases h
      · rw [hf] at h
        have hp1 : p = q + 1 := (Option.some.inj h).symm
        subst hp1
        exact ih q hf

theorem takeWhile_takeWhile_append (p : Char → Bool) (X : Str)
    (hX : X = [] ∨ ∃ x r, X = x :: r ∧ p x = false) :
    ∀ l : Str, (l.takeWhile p ++ X).takeWhile p = l.takeWhile p := by
  have hnil : X.takeWhile p = [] := by
    rcases hX with h | ⟨x, r, h, hx⟩
    · rw [h]; rfl
    · rw [h, List.takeWhile_cons_of_neg (by simp [hx])]
  intro l
  induction l with
  | nil => simpa using hnil
  | cons a l ih =>
    by_cases ha : p a = true
    · rw [List.takeWhile_cons_of_pos ha, List.cons_append, List.takeWhile_cons_of_pos ha, ih]
    · rw [List.takeWhile_cons_of_neg ha, List.nil_append]
      exact hnil

/-- The new main title of the new main title is the new main title. -/
theorem newMainTitle_idem (title ver : Str) :
    newMainTitle (newMainTitle title ver) ver = newMainTitle title ver := by
  rw [newMainTitle_eq (newMainTitle title ver) ver, newMainTitle_eq title ver]
  congr 1
  apply takeWhile_takeWhile_append
  cases ver with
  | nil => exact Or.inl (by simp)
  | cons v vs => exact Or.inr ⟨':', ' ' :: (v :: vs), by simp, by decide⟩

/-- A child retitled with a main title that contains no `" - "` and does not end in
`" -"` is left as it is by a second retitling with the same main title. -/
theorem updateChildTitle_idem (t : Str) (hno : find t " - ".toList = none)
    (hend : ¬ " -".toList <:+ t) (w : GuiWinData) :
    updateChildTitle t (updateChildTitle t w) = updateChildTitle t w := by
  rcases hf : find w.GetTitle " - ".toList with _ | pos
  · have h1 : updateChildTitle t w = w := by simp only [updateChildTitle, hf]
    rw [h1, h1]
  · have h1 : updateChildTitle t w = w.SetTitle (t ++ w.GetTitle.drop pos) := by
      simp only [updateChildTitle, hf, replace0]
    obtain ⟨rest, hrest⟩ := find_some _ _ _ hf
    have h2 : find (t ++ " - ".toList ++ rest) " - ".toList = some t.length :=
      find_delimiter t rest hno hend
    rw [h1]
    have hT : (w.SetTitle (t ++ w.GetTitle.drop pos)).GetTitle = t ++ " - ".toList ++ rest := by
      show t ++ w.GetTitle.drop pos = _
      rw [← hrest, List.append_assoc]
    simp only [updateChildTitle, hT, h2, replace0]
    rw [List.append_assoc t, List.drop_left, ← hrest]
    rfl

/-! ## The claims -/

/-- C1: when one of the names parent name + kind name + n with 1 ≤ n ≤ 999 is free, there
is a smallest positive n whose name no data window has (open or not), it is at most 999,
and a creation whose factory call succeeds appends exactly one window, named parent name +
kind name + decimal n.  With parent `Receiver1`, creating `Map` twice gives
`Receiver1Map1` then `Receiver1Map2`; after `Receiver1Map1` is closed and swept, creating
`Map` again gives `Receiver1Map1`. -/
theorem C1_CreateByKind_smallest_free_number (env : Env) (d : DataWinDef) (st : GuiWinInput)
    (h : ∃ n, 1 ≤ n ∧ n ≤ 999 ∧
      (st.GetName ++ d.name ++ to_string n) ∉ st.dataWindows.map GuiWinData.GetName) :
    (∃ n, 1 ≤ n ∧ n ≤ 999 ∧
      (st.GetName ++ d.name ++ to_string n) ∉ st.dataWindows.map GuiWinData.GetName ∧
      (∀ m, 1 ≤ m → m < n →
        (st.GetName ++ d.name ++ to_string m) ∈ st.dataWindows.map GuiWinData.GetName) ∧
      (env.createThrows d (st.GetName ++ d.name ++ to_string n) = none →
        ∃ w, w.GetName = st.GetName ++ d.name ++ to_string n ∧ w.cls = d.cls ∧
          (CreateByKind env d st).dataWindows = st.dataWindows ++ [w])) ∧
    (createKind (quietEnv []) "Map" receiver1).names = ["Receiver1Map1".toList] ∧
    (createKind (quietEnv []) "Map" (createKind (quietEnv []) "Map" receiver1)).names =
      ["Receiver1Map1".toList, "Receiver1Map2".toList] ∧
    (DrawDataWindows (quietEnv []) (DrawDataWindows (quietEnv "Receiver1Map1".toList)
      (createKind (quietEnv []) "Map" (createKind (quietEnv []) "Map" receiver1)))).names =
      ["Receiver1Map2".toList] ∧
    (createKind (quietEnv []) "Map"
      (DrawDataWindows (quietEnv []) (DrawDataWindows (quietEnv "Receiver1Map1".toList)
        (createKind (quietEnv []) "Map" (createKind (quietEnv []) "Map" receiver1))))).names =
      ["Receiver1Map2".toList, "Receiver1Map1".toList] := by
  refine ⟨?_, by decide, by decide, by decide, by decide⟩
  obtain ⟨n, h1, h999, hfree, hmin⟩ := exists_least_free st d h
  refine ⟨n, h1, h999, hfree, hmin, ?_⟩
  intro hok
  refine ⟨createdWin st d n, rfl, rfl, ?_⟩
  rw [CreateByKind_eq_tryCreate env d st n h1 h999 hfree hmin, tryCreate_ok env d st n hok]

/-- Witness of C1: in `Receiver1` holding `Receiver1Map1`, the number 2 is free, and the
creation of `Map` picks it. -/
theorem C1_witness :
    ∃ n, 1 ≤ n ∧ n ≤ 999 ∧
      (receiver1Map1.GetName ++ mapDef.name ++ to_string n) ∉
        receiver1Map1.dataWindows.map GuiWinData.GetName ∧
      (∀ m, 1 ≤ m → m < n →
        (receiver1Map1.GetName ++ mapDef.name ++ to_string m) ∈
          receiver1Map1.dataWindows.map GuiWinData.GetName) ∧
      ((quietEnv []).createThrows mapDef
          (receiver1Map1.GetName ++ mapDef.name ++ to_string n) = none →
        ∃ w, w.GetName = receiver1Map1.GetName ++ mapDef.name ++ to_string n ∧
          w.cls = mapDef.cls ∧
          (CreateByKind (quietEnv []) mapDef receiver1Map1).dataWindows =
            receiver1Map1.dataWindows ++ [w]) :=
  (C1_CreateByKind_smallest_free_number (quietEnv []) mapDef receiver1Map1
    ⟨2, by decide, by decide, by decide⟩).1

/-- C2: the names of the data windows do not stay pairwise distinct under
`OpenPreviousDataWin`: unlike the button handler, the restore does not look at the names
in use.  Restoring the saved list `Receiver1Map1`, `Receiver1Map1` into the empty
`Receiver1` gives two data windows named `Receiver1Map1`. -/
theorem C2_restore_duplicates_a_name :
    (OpenPreviousDataWin (quietEnv []) ["Receiver1Map1".toList, "Receiver1Map1".toList]
        receiver1).names = ["Receiver1Map1".toList, "Receiver1Map1".toList] ∧
    ¬ (OpenPreviousDataWin (quietEnv []) ["Receiver1Map1".toList, "Receiver1Map1".toList]
        receiver1).names.Nodup := by
  decide

/-- C3: when `DrawDataWindows` is not skipped by the auto-hide guard and drawing a child
does not change its open flag, the data windows afterwards are the windows that were open,
drawn, in their original order: every window left is open, none that was open is missing,
and when drawing changes nothing of a child the list is exactly the sub-list of the open
windows. -/
theorem C3_DrawDataWindows_sweeps_closed (env : Env) (st : GuiWinInput)
    (hguard : (st.autoHideDatawin && !st.winDrawn) = false)
    (hdraw : ∀ w ∈ st.dataWindows, (w.DrawWindow env).IsOpen = w.IsOpen) :
    (DrawDataWindows env st).dataWindows =
        (st.dataWindows.filter GuiWinData.IsOpen).map (GuiWinData.DrawWindow env) ∧
    (DrawDataWindows env st).dataWindows.map GuiWinData.GetName =
        (st.dataWindows.filter GuiWinData.IsOpen).map GuiWinData.GetName ∧
    (∀ w ∈ (DrawDataWindows env st).dataWindows, w.IsOpen = true) ∧
    ((∀ w ∈ st.dataWindows, w.DrawWindow env = w) →
      (DrawDataWindows env st).dataWindows = st.dataWindows.filter GuiWinData.IsOpen) := by
  have hdw : (DrawDataWindows env st).dataWindows =
      (st.dataWindows.filter GuiWinData.IsOpen).map (GuiWinData.DrawWindow env) := by
    simp [DrawDataWindows, hguard, drawLoop_eq]
  refine ⟨hdw, ?_, ?_, ?_⟩
  · rw [hdw, List.map_map]
    rfl
  · intro w hw
    rw [hdw] at hw
    obtain ⟨v, hv, rfl⟩ := List.mem_map.1 hw
    rw [hdraw v (List.mem_filter.1 hv).1]
    exact (List.mem_filter.1 hv).2
  · intro hid
    rw [hdw]
    conv_rhs => rw [← List.map_id (st.dataWindows.filter GuiWinData.IsOpen)]
    apply List.map_congr_left
    intro w hw
    exact hid w (List.mem_filter.1 hw).1

/-- Witness of C3: `Receiver1` with `Map1` closed and `Map2` open, the children left as
they are by drawing. -/
theorem C3_witness :
    (DrawDataWindows (quietEnv []) receiver1MapClosed).dataWindows =
        (receiver1MapClosed.dataWindows.filter GuiWinData.IsOpen).map
          (GuiWinData.DrawWindow (quietEnv [])) ∧
    (DrawDataWindows (quietEnv []) receiver1MapClosed).dataWindows.map GuiWinData.GetName =
        (receiver1MapClosed.dataWindows.filter GuiWinData.IsOpen).map GuiWinData.GetName ∧
    (∀ w ∈ (DrawDataWindows (quietEnv []) receiver1MapClosed).dataWindows, w.IsOpen = true) ∧
    ((∀ w ∈ receiver1MapClosed.dataWindows, w.DrawWindow (quietEnv []) = w) →
      (DrawDataWindows (quietEnv []) receiver1MapClosed).dataWindows =
        receiver1MapClosed.dataWindows.filter GuiWinData.IsOpen) :=
  C3_DrawDataWindows_sweeps_closed (quietEnv []) receiver1MapClosed (by decide) (by decide)

/-- C4: after `OpenPreviousDataWin` the data windows are the previous ones followed, in the
order of the saved names, by one window for each saved name that is at least as long as
the parent name, whose remainder after the parent-name-length prefix starts with a catalog
kind name, and whose factory call succeeds; the window is built by the first catalog row,
in catalog order, whose name is a prefix of the remainder.  A saved name that fails one of
the three adds nothing, and the names after it are processed all the same. -/
theorem C4_OpenPreviousDataWin_restores (env : Env) (saved : List Str) (st : GuiWinInput) :
    (OpenPreviousDataWin env saved st).dataWindows =
      st.dataWindows ++ saved.filterMap (restoredBySpec env st.GetName) :=
  (OpenPreviousDataWin_dataWindows env saved st).1

/-- C5: `_ProcessData` hands the data to every data window exactly once, in list order,
whatever the type of the data and whether the window is open or not: the calls recorded
are one per window, in order, on the windows as the `switch` left them, and these have the
names, open flags and classes of the windows before.  The list afterwards holds the same
windows in the same order, each after its `ProcessData`. -/
theorem C5_ProcessData_reaches_every_window (env : Env) (data : Data) (st : GuiWinInput) :
    (_ProcessData env data st).delivered =
        st.delivered ++ (processSwitch data st).dataWindows.map (fun w => (w, data)) ∧
    (processSwitch data st).dataWindows.map (fun w => (w.GetName, w.IsOpen, w.cls)) =
        st.dataWindows.map (fun w => (w.GetName, w.IsOpen, w.cls)) ∧
    (_ProcessData env data st).dataWindows =
        (processSwitch data st).dataWindows.map (fun w => w.ProcessData env data) ∧
    (_ProcessData env data st).dataWindows.map (fun w => (w.GetName, w.cls)) =
        st.dataWindows.map (fun w => (w.GetName, w.cls)) ∧
    (_ProcessData env data st).dataWindows.length = st.dataWindows.length := by
  have hf := processSwitch_frame data st
  have hdw : (_ProcessData env data st).dataWindows =
      (processSwitch data st).dataWindows.map (fun w => w.ProcessData env data) := by
    simp [_ProcessData, processLoop_eq]
  have hnames := (ProcessData_names env data st).1
  refine ⟨?_, hf.1, hdw, hnames, ?_⟩
  · simp [_ProcessData, processLoop_eq, hf.2]
  · have := congrArg List.length hnames
    simpa using this

/-- Counterexample to C6 as stated: the parent title `Rx -` contains no `" - "`, the child
is titled `Rx -` + `" - "` + `Map 1`; the update leaves the parent title as it is and
turns the child title into `Rx - - - Map 1`, because the first `" - "` of the child title
starts inside the parent title. -/
theorem C6_counterexample :
    find "Rx -".toList " - ".toList = none ∧
    (receiver1Titled "Rx -" "" "Rx - - Map 1").GetTitle = "Rx -".toList ∧
    (receiver1Titled "Rx -" "" "Rx - - Map 1").dataWindows.map GuiWinData.GetTitle =
      ["Rx -".toList ++ " - ".toList ++ "Map 1".toList] ∧
    (_UpdateTitle (receiver1Titled "Rx -" "" "Rx - - Map 1")).GetTitle = "Rx -".toList ∧
    (_UpdateTitle (receiver1Titled "Rx -" "" "Rx - - Map 1")).dataWindows.map
        GuiWinData.GetTitle = ["Rx - - - Map 1".toList] ∧
    (_UpdateTitle (receiver1Titled "Rx -" "" "Rx - - Map 1")).dataWindows.map
        GuiWinData.GetTitle ≠
      [(_UpdateTitle (receiver1Titled "Rx -" "" "Rx - - Map 1")).GetTitle ++ " - ".toList ++
        "Map 1".toList] := by
  decide

/-- C6, amended: for a parent title P that contains no `" - "` and does not end in `" -"`,
and a child titled P + `" - "` + rest, `_UpdateTitle` sets the parent title to P' (P up to
its first colon, followed by `": "` and the version when the version is not empty) and the
child title to P' + `" - "` + rest.  With parent `Receiver 1: fw 1.0`, child
`Receiver 1: fw 1.0 - Map 1` and the version cleared, the parent becomes `Receiver 1` and
the child `Receiver 1 - Map 1`. -/
theorem C6_UpdateTitle_retitles_children (st : GuiWinInput) (rest : Str) (i : Nat)
    (w : GuiWinData)
    (hno : find st.GetTitle " - ".toList = none)
    (hend : ¬ " -".toList <:+ st.GetTitle)
    (hw : st.dataWindows[i]? = some w)
    (ht : w.GetTitle = st.GetTitle ++ " - ".toList ++ rest) :
    (_UpdateTitle st).GetTitle =
        st.GetTitle.takeWhile (fun c => c != ':') ++
          (if st.rxVerStr = [] then [] else ": ".toList ++ st.rxVerStr) ∧
    (_UpdateTitle st).dataWindows[i]? =
        some (w.SetTitle ((_UpdateTitle st).GetTitle ++ " - ".toList ++ rest)) ∧
    (_UpdateTitle (receiver1Titled "Receiver 1: fw 1.0" "" "Receiver 1: fw 1.0 - Map 1")).GetTitle =
        "Receiver 1".toList ∧
    (_UpdateTitle (receiver1Titled "Receiver 1: fw 1.0" "" "Receiver 1: fw 1.0 - Map 1")).dataWindows.map
        GuiWinData.GetTitle = ["Receiver 1 - Map 1".toList] := by
  refine ⟨newMainTitle_eq st.GetTitle st.rxVerStr, ?_, by decide, by decide⟩
  rw [UpdateTitle_getElem, hw, Option.map_some']
  have hf := find_delimiter st.GetTitle rest hno hend
  rw [← ht] at hf
  simp only [updateChildTitle, hf, replace0]
  rw [ht, List.append_assoc st.GetTitle, List.drop_left, List.append_assoc]

/-- Witness of C6: the parent `Receiver 1: fw 1.0` with the child
`Receiver 1: fw 1.0 - Map 1`. -/
theorem C6_witness :
    (_UpdateTitle (receiver1Titled "Receiver 1: fw 1.0" "" "Receiver 1: fw 1.0 - Map 1")).dataWindows[0]? =
      some (GuiWinData.SetTitle
        { winName := "Receiver1Map1".toList, winTitle := "Receiver 1: fw 1.0 - Map 1".toList,
          winOpen := true, cls := "GuiWinDataMap".toList }
        ((_UpdateTitle (receiver1Titled "Receiver 1: fw 1.0" "" "Receiver 1: fw 1.0 - Map 1")).GetTitle
          ++ " - ".toList ++ "Map 1".toList)) :=
  (C6_UpdateTitle_retitles_children
    (receiver1Titled "Receiver 1: fw 1.0" "" "Receiver 1: fw 1.0 - Map 1") "Map 1".toList 0
    { winName := "Receiver1Map1".toList, winTitle := "Receiver 1: fw 1.0 - Map 1".toList,
      winOpen := true, cls := "GuiWinDataMap".toList }
    (by decide) (by decide) rfl rfl).2.1

/-- Counterexample to C7 as stated: the child title `Custom - x` does not begin with the
parent title `Receiver 1` followed by `" - "`, and the update changes it to
`Receiver 1 - x`. -/
theorem C7_counterexample :
    ¬ ((receiver1Titled "Receiver 1" "" "Custom - x").GetTitle ++ " - ".toList) <+:
        "Custom - x".toList ∧
    (receiver1Titled "Receiver 1" "" "Custom - x").dataWindows.map GuiWinData.GetTitle =
      ["Custom - x".toList] ∧
    (_UpdateTitle (receiver1Titled "Receiver 1" "" "Custom - x")).dataWindows.map
        GuiWinData.GetTitle = ["Receiver 1 - x".toList] := by
  decide

/-- C7, amended: `_UpdateTitle` leaves unchanged every child whose title contains no
`" - "`; in a title that contains `" - "`, what stands before the first `" - "` is
replaced by the new parent title, whatever it was. -/
theorem C7_UpdateTitle_keeps_titles_without_delimiter (st : GuiWinInput) (i : Nat)
    (w : GuiWinData) (hw : st.dataWindows[i]? = some w) :
    (find w.GetTitle " - ".toList = none → (_UpdateTitle st).dataWindows[i]? = some w) ∧
    (∀ pos, find w.GetTitle " - ".toList = some pos →
      (_UpdateTitle st).dataWindows[i]? =
        some (w.SetTitle ((_UpdateTitle st).GetTitle ++ w.GetTitle.drop pos))) := by
  rw [UpdateTitle_getElem, hw, Option.map_some']
  constructor
  · intro h
    simp only [updateChildTitle, h]
  · intro pos h
    simp only [updateChildTitle, h, replace0]

/-- Witness of C7: the child titled `My own title` keeps its title when the version
`1.0` becomes known. -/
theorem C7_witness :
    (_UpdateTitle (receiver1Titled "Receiver 1" "1.0" "My own title")).dataWindows[0]? =
      some { winName := "Receiver1Map1".toList, winTitle := "My own title".toList,
             winOpen := true, cls := "GuiWinDataMap".toList } :=
  (C7_UpdateTitle_keeps_titles_without_delimiter
    (receiver1Titled "Receiver 1" "1.0" "My own title") 0
    { winName := "Receiver1Map1".toList, winTitle := "My own title".toList,
      winOpen := true, cls := "GuiWinDataMap".toList } rfl).1 (by decide)

/-- C8: when the factory call of `CreateByKind` throws (`n` being the number the search
stops at), the operation returns with the data windows as they were, same windows in the
same order; the exception ends in one logged error, and the factory was called once, for
`n`, and for no further number. -/
theorem C8_CreateByKind_failure_adds_nothing (env : Env) (d : DataWinDef) (st : GuiWinInput)
    (n : Nat) (what : Str) (h1 : 1 ≤ n) (h999 : n ≤ 999)
    (hfree : (st.GetName ++ d.name ++ to_string n) ∉ st.dataWindows.map GuiWinData.GetName)
    (hmin : ∀ m, 1 ≤ m → m < n →
      (st.GetName ++ d.name ++ to_string m) ∈ st.dataWindows.map GuiWinData.GetName)
    (hthrow : env.createThrows d (st.GetName ++ d.name ++ to_string n) = some what) :
    (CreateByKind env d st).dataWindows = st.dataWindows ∧
    (CreateByKind env d st).factoryCalls =
        st.factoryCalls ++ [(d.name, st.GetName ++ d.name ++ to_string n)] ∧
    (CreateByKind env d st).log = st.log ++ [(LogLevel.ERROR,
        "new ".toList ++ c_str (st.GetName ++ d.name) ++ to_string n ++ ": ".toList ++ what)] ∧
    CreateByKind env d st =
      { st with factoryCalls := (CreateByKind env d st).factoryCalls
                log := (CreateByKind env d st).log } := by
  rw [CreateByKind_eq_tryCreate env d st n h1 h999 hfree hmin,
    tryCreate_error env d st n what hthrow]
  exact ⟨rfl, rfl, rfl, rfl⟩

/-- Witness of C8: in the empty `Receiver1` the factory of `Map` throws for
`Receiver1Map1`. -/
theorem C8_witness :
    (CreateByKind (throwingEnv "oops".toList) mapDef receiver1).dataWindows =
        receiver1.dataWindows ∧
    (CreateByKind (throwingEnv "oops".toList) mapDef receiver1).factoryCalls =
        receiver1.factoryCalls ++ [(mapDef.name, receiver1.GetName ++ mapDef.name ++ to_string 1)] ∧
    (CreateByKind (throwingEnv "oops".toList) mapDef receiver1).log =
        receiver1.log ++ [(LogLevel.ERROR,
          "new ".toList ++ c_str (receiver1.GetName ++ mapDef.name) ++ to_string 1 ++ ": ".toList ++
            "oops".toList)] ∧
    CreateByKind (throwingEnv "oops".toList) mapDef receiver1 =
      { receiver1 with
        factoryCalls := (CreateByKind (throwingEnv "oops".toList) mapDef receiver1).factoryCalls
        log := (CreateByKind (throwingEnv "oops".toList) mapDef receiver1).log } :=
  C8_CreateByKind_failure_adds_nothing (throwingEnv "oops".toList) mapDef receiver1 1
    "oops".toList (by decide) (by decide) (by decide) (by intro m h1 h2; omega) rfl

/-- C9: the search of `CreateByKind` is bounded: the loop ends within 999 iterations (a
larger bound on the recursion changes nothing).  When every name parent name + kind name +
n with 1 ≤ n < 1000 is in use, nothing is created and the state is as before.  In every
case the operation either does nothing or calls the factory once, for a number n with
1 ≤ n < 1000, and then adds at most the one window of that name. -/
theorem C9_CreateByKind_bounded (env : Env) (d : DataWinDef) (st : GuiWinInput) :
    ((∀ m, 1 ≤ m → m < 1000 →
        (st.GetName ++ d.name ++ to_string m) ∈ st.dataWindows.map GuiWinData.GetName) →
      CreateByKind env d st = st) ∧
    (∀ fuel, 999 ≤ fuel →
      whileWinNumber env d (st.GetName ++ d.name) fuel 1 st = CreateByKind env d st) ∧
    (CreateByKind env d st = st ∨
      ∃ n, 1 ≤ n ∧ n < 1000 ∧
        (CreateByKind env d st).factoryCalls =
          st.factoryCalls ++ [(d.name, st.GetName ++ d.name ++ to_string n)] ∧
        ((CreateByKind env d st).dataWindows = st.dataWindows ∨
          ∃ w, w.GetName = st.GetName ++ d.name ++ to_string n ∧
            (CreateByKind env d st).dataWindows = st.dataWindows ++ [w])) := by
  refine ⟨fun hfull => CreateByKind_eq_self env d st hfull,
    fun fuel hfuel => whileWinNumber_fuel env d st fuel hfuel, ?_⟩
  rcases CreateByKind_cases env d st with ⟨_, he⟩ | ⟨n, h1, h999, _, _, he⟩
  · exact Or.inl he
  · refine Or.inr ⟨n, h1, by omega, ?_⟩
    rw [he]
    rcases tryCreate_cases env d st n with ⟨what, _, ht⟩ | ⟨_, ht⟩
    · rw [ht]; exact ⟨rfl, Or.inl rfl⟩
    · rw [ht]; exact ⟨rfl, Or.inr ⟨createdWin st d n, rfl, rfl⟩⟩

/-- Witness of C9: `Receiver1` holds `Receiver1Map1` to `Receiver1Map999`, and creating
`Map` does nothing. -/
theorem C9_witness :
    CreateByKind (quietEnv []) mapDef receiver1Full = receiver1Full :=
  (C9_CreateByKind_bounded (quietEnv []) mapDef receiver1Full).1 (by
    intro m h1 h2
    show _ ∈ List.map GuiWinData.GetName
      (List.map (fun n => createdWin receiver1 mapDef n) (List.range' 1 999))
    rw [List.map_map]
    exact List.mem_map.2 ⟨m, List.mem_range'_1.2 ⟨h1, by omega⟩, rfl⟩)

/-- C10: from a state of the input window without data window of the kind `d`, a sequence
of creations of catalog kinds in which the creations of `d` succeed and are at most 999,
whatever creations of other kinds stand in between and however they end, gives the
windows of the kind `d` the names parent name + kind name + 1, 2, ..., k in the order of
their creation, k being the number of creations of `d`. -/
theorem C10_gap_free_numbering (env env0 : Env) (d : DataWinDef) (hd : d ∈ _dataWinDefs)
    (hok : ∀ nm, env.createThrows d nm = none)
    (st : GuiWinInput) (hst : Reachable env0 st)
    (hno : ∀ w ∈ st.dataWindows, w.cls ≠ d.cls)
    (ops : List DataWinDef) (hops : ∀ e ∈ ops, e ∈ _dataWinDefs)
    (hk : ops.count d ≤ 999) :
    ((createAll env ops st).dataWindows.filter (fun w => w.cls = d.cls)).map
        GuiWinData.GetName =
      (List.range' 1 (ops.count d)).map (fun n => st.GetName ++ d.name ++ to_string n) := by
  have h0 : Numbered st.GetName d 0 st := by
    refine ⟨rfl, reachable_wellNamed env0 st hst, ?_⟩
    have : st.dataWindows.filter (fun w => w.cls = d.cls) = [] := by
      rw [List.filter_eq_nil_iff]
      intro w hw
      simpa using hno w hw
    rw [this]
    rfl
  have h := Numbered_createAll env st.GetName d hd hok ops hops 0 st h0 (by omega)
  rw [Nat.zero_add] at h
  exact h.2.2

/-- Witness of C10: in the fresh `Receiver1`, every button of the catalog is clicked once
and then once more; the two `Map` windows are `Receiver1Map1` and `Receiver1Map2`. -/
theorem C10_witness :
    ((createAll (quietEnv []) (_dataWinDefs ++ _dataWinDefs) receiver1).dataWindows.filter
        (fun w => w.cls = mapDef.cls)).map GuiWinData.GetName =
      (List.range' 1 ((_dataWinDefs ++ _dataWinDefs).count mapDef)).map
        (fun n => receiver1.GetName ++ mapDef.name ++ to_string n) :=
  C10_gap_free_numbering (quietEnv []) (quietEnv []) mapDef (by decide) (fun _ => rfl)
    receiver1
    (Reachable.other (GuiWinInput.new "Receiver1".toList "Receiver 1".toList) receiver1
      (Reachable.fresh _ _) rfl rfl)
    (by decide)
    (_dataWinDefs ++ _dataWinDefs)
    (by intro e he; simpa using he) (by decide)

/-- Counterexample to C11 as stated: restoring `Receiver1Map1`, `Receiver1Foo3` into the
empty `Receiver1` gives the one window `Receiver1Map1` and no warning at all: the name
`Receiver1Foo3`, which matches no catalog kind, is passed over in silence, and windows
plus warnings are one, not two. -/
theorem C11_counterexample :
    (OpenPreviousDataWin (quietEnv []) ["Receiver1Map1".toList, "Receiver1Foo3".toList]
        receiver1).names = ["Receiver1Map1".toList] ∧
    (OpenPreviousDataWin (quietEnv []) ["Receiver1Map1".toList, "Receiver1Foo3".toList]
        receiver1).log = [] ∧
    (OpenPreviousDataWin (quietEnv []) ["Receiver1Map1".toList, "Receiver1Foo3".toList]
        receiver1).dataWindows.length +
      (OpenPreviousDataWin (quietEnv []) ["Receiver1Map1".toList, "Receiver1Foo3".toList]
        receiver1).log.length ≠
      ["Receiver1Map1".toList, "Receiver1Foo3".toList].length := by
  decide

/-- C11, amended: in a restore into an empty registry with factories that never throw, a
saved name at least as long as the parent name whose remainder starts with no catalog
kind name gives no window and no warning; the warnings logged are those for the saved
names shorter than the parent name, one each; and the number of windows plus the number
of warnings plus the number of unmatched names is the number of saved names.  Restoring
`Receiver1Map1`, `Receiver1Foo3` under `Receiver1` gives one window, `Receiver1Map1`, and
no warning. -/
theorem C11_restore_warns_on_exceptions_only (env : Env)
    (hok : ∀ d nm, env.createThrows d nm = none) (saved : List Str) (st : GuiWinInput)
    (hempty : st.dataWindows = []) (hlog : st.log = []) :
    (∀ s, unmatched st.GetName s = true → restoreOne env st s = st) ∧
    (OpenPreviousDataWin env saved st).log =
      (saved.filter (fun s => decide (s.length < st.GetName.length))).map
        (fun s => (LogLevel.WARNING,
          "new ".toList ++ c_str s ++ ": ".toList ++ env.outOfRangeWhat)) ∧
    (OpenPreviousDataWin env saved st).dataWindows.length +
        (OpenPreviousDataWin env saved st).log.length +
        (saved.filter (unmatched st.GetName)).length = saved.length ∧
    (OpenPreviousDataWin (quietEnv []) ["Receiver1Map1".toList, "Receiver1Foo3".toList]
        receiver1).names = ["Receiver1Map1".toList] ∧
    (OpenPreviousDataWin (quietEnv []) ["Receiver1Map1".toList, "Receiver1Foo3".toList]
        receiver1).log = [] := by
  have hw := (OpenPreviousDataWin_dataWindows env saved st).1
  have hl := OpenPreviousDataWin_log env saved st
  rw [hempty, List.nil_append] at hw
  rw [hlog, List.nil_append] at hl
  refine ⟨fun s hs => restoreOne_unmatched env st s hs, ?_, ?_, by decide, by decide⟩
  · rw [hl]
    exact restoreWarning_short env hok st.GetName saved
  · rw [hw, hl]
    exact restore_three_ways env hok st.GetName saved

/-- Witness of C11: the saved names `Receiver1Map1`, `Rx` and `Receiver1Foo3` restored
into the empty `Receiver1`: one window, one warning (for `Rx`), one unmatched name. -/
theorem C11_witness :
    (OpenPreviousDataWin (quietEnv [])
        ["Receiver1Map1".toList, "Rx".toList, "Receiver1Foo3".toList] receiver1).dataWindows.length +
      (OpenPreviousDataWin (quietEnv [])
        ["Receiver1Map1".toList, "Rx".toList, "Receiver1Foo3".toList] receiver1).log.length +
      (["Receiver1Map1".toList, "Rx".toList, "Receiver1Foo3".toList].filter
        (unmatched receiver1.GetName)).length =
      ["Receiver1Map1".toList, "Rx".toList, "Receiver1Foo3".toList].length :=
  (C11_restore_warns_on_exceptions_only (quietEnv []) (fun _ _ => rfl)
    ["Receiver1Map1".toList, "Rx".toList, "Receiver1Foo3".toList] receiver1 rfl rfl).2.2.1

/-- C12: the window that `CreateByKind` adds for the number `n` it stops at is open and
titled parent title + `" - "` + display title of the kind + `" "` + decimal `n`, the
parent title being the one at the time of the creation, version part included: under
`Receiver 1: fw 1.0` the first `Map` is titled `Receiver 1: fw 1.0 - Map 1`. -/
theorem C12_created_window_is_open_and_titled (env : Env) (d : DataWinDef) (st : GuiWinInput)
    (n : Nat) (h1 : 1 ≤ n) (h999 : n ≤ 999)
    (hfree : (st.GetName ++ d.name ++ to_string n) ∉ st.dataWindows.map GuiWinData.GetName)
    (hmin : ∀ m, 1 ≤ m → m < n →
      (st.GetName ++ d.name ++ to_string m) ∈ st.dataWindows.map GuiWinData.GetName)
    (hok : env.createThrows d (st.GetName ++ d.name ++ to_string n) = none) :
    (CreateByKind env d st).dataWindows = st.dataWindows ++
      [{ winName := st.GetName ++ d.name ++ to_string n
         winTitle := st.GetTitle ++ " - ".toList ++ d.title ++ " ".toList ++ to_string n
         winOpen := true
         cls := d.cls }] ∧
    (createKind (quietEnv []) "Map" receiver1Versioned).dataWindows.map
        (fun w => (w.GetTitle, w.IsOpen)) = [("Receiver 1: fw 1.0 - Map 1".toList, true)] := by
  refine ⟨?_, by decide⟩
  rw [CreateByKind_eq_tryCreate env d st n h1 h999 hfree hmin, tryCreate_ok env d st n hok]
  rfl

/-- Witness of C12: the second `Map` under `Receiver1`. -/
theorem C12_witness :
    (CreateByKind (quietEnv []) mapDef receiver1Map1).dataWindows =
      receiver1Map1.dataWindows ++
        [{ winName := receiver1Map1.GetName ++ mapDef.name ++ to_string 2
           winTitle := receiver1Map1.GetTitle ++ " - ".toList ++ mapDef.title ++ " ".toList ++
             to_string 2
           winOpen := true
           cls := mapDef.cls }] :=
  (C12_created_window_is_open_and_titled (quietEnv []) mapDef receiver1Map1 2 (by decide)
    (by decide) (by decide)
    (by
      intro m h1 h2
      have hm : m = 1 := by omega
      subst hm
      decide)
    rfl).1

/-- C13: the restore does not title a window the way the button handler does: it puts
the parent name where the button handler puts the parent title.  Under the parent named
`Receiver1` and titled `Receiver 1`, the window `Receiver1Map1` is titled
`Receiver 1 - Map 1` when created and `Receiver1 - Map 1` when restored. -/
theorem C13_restore_titles_with_the_parent_name :
    (createKind (quietEnv []) "Map" receiver1).dataWindows.map
        (fun w => (w.GetName, w.GetTitle)) =
      [("Receiver1Map1".toList, "Receiver 1 - Map 1".toList)] ∧
    (OpenPreviousDataWin (quietEnv []) ["Receiver1Map1".toList] receiver1).dataWindows.map
        (fun w => (w.GetName, w.GetTitle)) =
      [("Receiver1Map1".toList, "Receiver1 - Map 1".toList)] := by
  decide

/-- C14: the catalog `_dataWinDefs` has the 13 kind names Log, Messages, Inf, Scatter,
Signals, Config, Plots, Map, Satellites, Stats, Epoch, Fwupdate, Custom; they are not
empty, pairwise distinct, without decimal digit, and none is a prefix of another.  So at
most one row matches a remainder by the prefix test of the restore, and the only row that
matches a kind name followed by a decimal number is the row of that kind. -/
theorem C14_catalog_is_prefix_free :
    _dataWinDefs.map (fun d => d.name) =
      ["Log".toList, "Messages".toList, "Inf".toList, "Scatter".toList, "Signals".toList,
       "Config".toList, "Plots".toList, "Map".toList, "Satellites".toList, "Stats".toList,
       "Epoch".toList, "Fwupdate".toList, "Custom".toList] ∧
    (∀ d ∈ _dataWinDefs, d.name ≠ []) ∧
    (_dataWinDefs.map (fun d => d.name)).Nodup ∧
    (∀ d ∈ _dataWinDefs, ∀ c ∈ d.name, c.isDigit = false) ∧
    (∀ d ∈ _dataWinDefs, ∀ e ∈ _dataWinDefs, d.name <+: e.name → d = e) ∧
    (∀ r : Str, ∀ d ∈ _dataWinDefs, ∀ e ∈ _dataWinDefs,
      strncmp (c_str r) d.name (strlen d.name) = 0 →
      strncmp (c_str r) e.name (strlen e.name) = 0 → d = e) ∧
    (∀ d ∈ _dataWinDefs, ∀ n : Nat, ∀ e ∈ _dataWinDefs,
      (strncmp (c_str (d.name ++ to_string n)) e.name (strlen e.name) = 0 ↔ e = d)) := by
  refine ⟨by decide, by decide, by decide, by decide, ?_, ?_, ?_⟩
  · intro d hd e he h
    exact dataWinDefs_prefix_free d hd e he (List.isPrefixOf_iff_prefix.2 h)
  · intro r d hd e he h1 h2
    exact prefix_unique d e hd he r ((matches_iff_starts d hd r).1 h1)
      ((matches_iff_starts e he r).1 h2)
  · intro d hd n e he
    rw [matches_iff_starts e he]
    constructor
    · intro h
      exact kind_of_candidate d e hd he _ h
    · intro h
      rw [h]
      exact List.prefix_append _ _

/-- Witness of C14: the remainder `Map12` is matched by the row `Map`. -/
theorem C14_witness :
    (strncmp (c_str (mapDef.name ++ to_string 12)) mapDef.name (strlen mapDef.name) = 0 ↔
      mapDef = mapDef) :=
  C14_catalog_is_prefix_free.2.2.2.2.2.2 mapDef (by decide) 12 mapDef (by decide)

/-- C15: for a state reached from the fresh window by creations and sweeps that holds no
more data windows than the settings keep, the names saved by the destructor are the names
of the data windows in list order, which is the order of their creation, and restoring
them into a fresh window of the same name, with factories that do not throw, gives data
windows of the same names and the same classes in the same order. -/
theorem C15_save_and_restore (env env2 : Env) (st : GuiWinInput) (h : Created env st)
    (hok : ∀ d nm, env2.createThrows d nm = none) (max : Nat)
    (hcap : st.dataWindows.length ≤ max) (title2 : Str) :
    openWinNames st = st.dataWindows.map GuiWinData.GetName ∧
    (OpenPreviousDataWin env2 (savedList max (openWinNames st))
        (GuiWinInput.new st.GetName title2)).dataWindows.map (fun w => (w.GetName, w.cls)) =
      st.dataWindows.map (fun w => (w.GetName, w.cls)) := by
  refine ⟨rfl, ?_⟩
  have hsaved : savedList max (openWinNames st) = st.dataWindows.map GuiWinData.GetName := by
    unfold savedList openWinNames
    exact List.take_of_length_le (by simpa using hcap)
  rw [hsaved, (OpenPreviousDataWin_dataWindows env2 _ _).1]
  show (([] : List GuiWinData) ++ _).map _ = _
  rw [List.nil_append]
  exact restore_created env2 hok st.GetName st.dataWindows (created_form env st h)

/-- Witness of C15: `Receiver1` after two clicks on `Map`, saved with room for 20 names
and restored. -/
theorem C15_witness :
    (OpenPreviousDataWin (quietEnv []) (savedList 20 (openWinNames receiver1Two))
        (GuiWinInput.new receiver1Two.GetName "Receiver 1".toList)).dataWindows.map
        (fun w => (w.GetName, w.cls)) =
      receiver1Two.dataWindows.map (fun w => (w.GetName, w.cls)) :=
  (C15_save_and_restore (quietEnv []) (quietEnv []) receiver1Two
    (Created.create _ _ (Created.create _ _ (Created.fresh _ _) (by decide)) (by decide))
    (fun _ _ => rfl) 20 (by decide) "Receiver 1".toList).2

/-- C16: the restore does not look at the capabilities.  Under the logfile window
`Logfile1`, whose capabilities `PASSIVE` share no bit with the requirement `ACTIVE` of
`Config`, the button of `Config` is disabled and clicking every button creates no
`Config` and no `Fwupdate` window, but restoring the saved name `Logfile1Config1` puts a
window of the class of `Config` into the list. -/
theorem C16_restore_ignores_capabilities :
    (findDef "Config".toList).map
        (fun d => CHKBITS_ANY d.reqs.bits logfile1.dataWinCaps.bits) = some false ∧
    (_DrawDataWinButtons (quietEnv []) (fun _ => true) logfile1).dataWindows.map
        (fun w => w.cls) =
      ["GuiWinDataLog".toList, "GuiWinDataMessages".toList, "GuiWinDataInf".toList,
       "GuiWinDataScatter".toList, "GuiWinDataSignals".toList, "GuiWinDataPlot".toList,
       "GuiWinDataMap".toList, "GuiWinDataSatellites".toList, "GuiWinDataStats".toList,
       "GuiWinDataEpoch".toList, "GuiWinDataCustom".toList] ∧
    (OpenPreviousDataWin (quietEnv []) ["Logfile1Config1".toList] logfile1).dataWinCaps =
      Cap_e.PASSIVE ∧
    (OpenPreviousDataWin (quietEnv []) ["Logfile1Config1".toList] logfile1).dataWindows.map
        (fun w => (w.GetName, w.cls)) =
      [("Logfile1Config1".toList, "GuiWinDataConfig".toList)] := by
  decide

/-- C17: the icon shown is not the one of the band written beside it.  For the database
of 10000 epochs with 2200 in use (22%) the index is 0, the icon documented for 0% to 20%,
while 22% lies in the band 20% to 40% documented for icon 1; with 9000 in use (90%) the
index is 3, while 90% lies in the band 80% to 100% documented for icon 4. -/
theorem C17_icon_bands_are_quarters :
    dbIconIx 10000 2200 = 0 ∧
    dbIcons[0]? = some ("ICON_FK_BATTERY_EMPTY", 0, 20) ∧
    dbIcons[1]? = some ("ICON_FK_BATTERY_QUARTER", 20, 40) ∧
    (20 * 10000 ≤ 100 * 2200 ∧ 100 * 2200 < 40 * 10000) ∧
    dbIconIx 10000 9000 = 3 ∧
    dbIcons[4]? = some ("ICON_FK_BATTERY_FULL", 80, 100) ∧
    (80 * 10000 ≤ 100 * 9000 ∧ 100 * 9000 ≤ 100 * 10000) := by
  refine ⟨?_, rfl, rfl, by decide, ?_, rfl, by decide⟩
  · rw [dbIconIx_eq 10000 2200 (by decide) (by decide) (by decide)]
    decide
  · rw [dbIconIx_eq 10000 9000 (by decide) (by decide) (by decide)]
    decide

/-- C18: a saved name at least as long as the parent name, whose remainder after the first
parent-name-length characters starts with the kind name of a catalog row, is restored
(the factory not throwing) to a window of that row named parent name + remainder.  The
name is the saved name exactly when the saved name starts with the parent name, and
nothing is asked of what follows the kind name: `Receiver1Map`, `Receiver1Mapxyz`,
`Receiver1Map0` and `Receiver1Map1000` are restored under these names, and
`Logfile77Map1` is restored as `Receiver1Map1`. -/
theorem C18_restored_window_name (env : Env) (st : GuiWinInput) (s : Str) (d : DataWinDef)
    (hd : d ∈ _dataWinDefs) (hlen : st.GetName.length ≤ s.length)
    (hpre : d.name <+: s.drop st.GetName.length)
    (hok : env.createThrows d (st.GetName ++ s.drop st.GetName.length) = none) :
    (∃ w, (restoreOne env st s).dataWindows = st.dataWindows ++ [w] ∧
      w.GetName = st.GetName ++ s.drop st.GetName.length ∧ w.cls = d.cls) ∧
    (st.GetName ++ s.drop st.GetName.length = s ↔ st.GetName <+: s) ∧
    (OpenPreviousDataWin (quietEnv [])
        ["Receiver1Map".toList, "Receiver1Mapxyz".toList, "Receiver1Map0".toList,
         "Receiver1Map1000".toList, "Logfile77Map1".toList] receiver1).names =
      ["Receiver1Map".toList, "Receiver1Mapxyz".toList, "Receiver1Map0".toList,
       "Receiver1Map1000".toList, "Receiver1Map1".toList] := by
  refine ⟨⟨restoredWin st.GetName d (s.drop st.GetName.length), ?_, rfl, rfl⟩, ?_, by decide⟩
  · rw [(restoreOne_dataWindows env st s).1]
    congr 1
    simp only [restoredBySpec, hlen, if_true, find_kind d hd _ hpre, hok, Option.toList]
  · constructor
    · intro h
      exact ⟨s.drop st.GetName.length, h⟩
    · rintro ⟨t, ht⟩
      rw [← ht, List.drop_left]

/-- Witness of C18: the saved name `Logfile77Map1` under the parent `Receiver1`. -/
theorem C18_witness :
    ∃ w, (restoreOne (quietEnv []) receiver1 "Logfile77Map1".toList).dataWindows =
        receiver1.dataWindows ++ [w] ∧
      w.GetName = receiver1.GetName ++ "Logfile77Map1".toList.drop receiver1.GetName.length ∧
      w.cls = mapDef.cls :=
  (C18_restored_window_name (quietEnv []) receiver1 "Logfile77Map1".toList mapDef (by decide)
    (by decide) (by decide) rfl).1

/-- Counterexample to C19 as stated: the parent `Receiver 1` with the version
`HPG 1.30 - B` and the child `Receiver 1 - Map 1`.  The first update titles the child
`Receiver 1: HPG 1.30 - B - Map 1`; the second, with the same version, finds the first
`" - "` inside the version and titles it `Receiver 1: HPG 1.30 - B - B - Map 1`. -/
theorem C19_counterexample :
    (_UpdateTitle (receiver1Titled "Receiver 1" "HPG 1.30 - B" "Receiver 1 - Map 1")).dataWindows.map
        GuiWinData.GetTitle = ["Receiver 1: HPG 1.30 - B - Map 1".toList] ∧
    (_UpdateTitle (_UpdateTitle
        (receiver1Titled "Receiver 1" "HPG 1.30 - B" "Receiver 1 - Map 1"))).dataWindows.map
        GuiWinData.GetTitle = ["Receiver 1: HPG 1.30 - B - B - Map 1".toList] ∧
    _UpdateTitle (_UpdateTitle
        (receiver1Titled "Receiver 1" "HPG 1.30 - B" "Receiver 1 - Map 1")) ≠
      _UpdateTitle (receiver1Titled "Receiver 1" "HPG 1.30 - B" "Receiver 1 - Map 1") := by
  decide

/-- C19, amended: a second `_UpdateTitle` with the same version never changes the parent
title; and when the parent title after the first update contains no `" - "` and does not
end in `" -"`, the second update changes nothing at all: the parent title and every child
title are as the first update left them. -/
theorem C19_UpdateTitle_twice (st : GuiWinInput) :
    (_UpdateTitle (_UpdateTitle st)).GetTitle = (_UpdateTitle st).GetTitle ∧
    (find (_UpdateTitle st).GetTitle " - ".toList = none →
      ¬ " -".toList <:+ (_UpdateTitle st).GetTitle →
      _UpdateTitle (_UpdateTitle st) = _UpdateTitle st) := by
  have hT : (_UpdateTitle (_UpdateTitle st)).GetTitle = (_UpdateTitle st).GetTitle :=
    newMainTitle_idem st.GetTitle st.rxVerStr
  refine ⟨hT, ?_⟩
  intro hno hend
  have hT2 : newMainTitle (newMainTitle st.winTitle st.rxVerStr) st.rxVerStr =
      newMainTitle st.winTitle st.rxVerStr := newMainTitle_idem st.winTitle st.rxVerStr
  have hno2 : find (newMainTitle st.winTitle st.rxVerStr) " - ".toList = none := hno
  have hend2 : ¬ " -".toList <:+ newMainTitle st.winTitle st.rxVerStr := hend
  have hW : (st.dataWindows.map (updateChildTitle (newMainTitle st.winTitle st.rxVerStr))).map
      (updateChildTitle (newMainTitle st.winTitle st.rxVerStr)) =
      st.dataWindows.map (updateChildTitle (newMainTitle st.winTitle st.rxVerStr)) := by
    rw [List.map_map]
    apply List.map_congr_left
    intro w _
    exact updateChildTitle_idem _ hno2 hend2 w
  simp only [_UpdateTitle, SetTitle, GetTitle, hT2, hW]

/-- Witness of C19: the parent `Receiver 1: fw 1.0` with the child
`Receiver 1: fw 1.0 - Map 1`, the version `fw 2.0` updated twice. -/
theorem C19_witness :
    _UpdateTitle (_UpdateTitle
        (receiver1Titled "Receiver 1: fw 1.0" "fw 2.0" "Receiver 1: fw 1.0 - Map 1")) =
      _UpdateTitle (receiver1Titled "Receiver 1: fw 1.0" "fw 2.0" "Receiver 1: fw 1.0 - Map 1") :=
  (C19_UpdateTitle_twice
    (receiver1Titled "Receiver 1: fw 1.0" "fw 2.0" "Receiver 1: fw 1.0 - Map 1")).2
    (by decide) (by decide)

end CfgGui
